import Mathlib

/-!
Verification of the Nimble text-editing core (src/buffer.rs, src/editor.rs).

Shallow embedding of the cursor/selection model, the rope line arithmetic,
the change-event translation and the semantic-highlight correction of the
`TextBuffer` type, together with theorems settling the specification claims.

The document is a `List Char` (ropey's character-indexed view).  Ropey's
line segmentation recognises LF, VT, FF, CR, NEL, LS and PS, with CRLF
counted as a single break; the functions below reproduce that convention.
Machine integers (`usize`, `u32`) are modelled as `Nat`: Rust's
`saturating_sub` and Nat subtraction agree, and the one unchecked
subtraction in the source (`caret_char_pos -= count` in the Left arm of
`set_selection`) is accompanied by a theorem bounding the counts actually
passed there.  Out-of-range rope access (which panics in ropey) is modelled
by `getD`; each verified use is guarded so the default is never read.
-/

namespace Nimble

/-- Source `TextBuffer::is_linebreak` (buffer.rs:1202): the line-break code points
supported by ropey. -/
def isLinebreak (c : Char) : Bool :=
  c = '\n' || c = '\r' || c = '\u000B' || c = '\u000C' ||
  c = '\u0085' || c = '\u2028' || c = '\u2029'

/-- Source `TextBuffer::is_word` (buffer.rs:1114): alphanumeric or underscore.
Rust's `char::is_alphanumeric` is Unicode-aware; all inputs exercised by the
claims are ASCII, where `Char.isAlphanum` agrees with it. -/
def is_word (c : Char) : Bool :=
  c.isAlphanum || c = '_'

/-- Source `CharType` (buffer.rs:51). -/
inductive CharType where
  | Word
  | Punctuation
  | Linebreak
deriving DecidableEq, Repr

/-- Source `CharSearchDirection` (buffer.rs:58). -/
inductive CharSearchDirection where
  | Forward
  | Backward
deriving DecidableEq, Repr

/-- Source `SelectionMode` (buffer.rs:37). -/
inductive SelectionMode where
  | Left
  | Right
  | Down
  | Up
deriving DecidableEq, Repr

/-- Source `TextBuffer::get_char_type` (buffer.rs:1118). -/
def get_char_type (c : Char) : CharType :=
  if is_word c then CharType.Word
  else if isLinebreak c then CharType.Linebreak
  else CharType.Punctuation

/-- Number of ropey line breaks in a character sequence; a CRLF pair counts
as one break. -/
def numLinebreaks : List Char → Nat
  | [] => 0
  | '\r' :: '\n' :: rest => numLinebreaks rest + 1
  | c :: rest => numLinebreaks rest + (if isLinebreak c then 1 else 0)

/-- Source `Rope::len_lines`: one more than the number of breaks. -/
def len_lines (s : List Char) : Nat :=
  numLinebreaks s + 1

/-- Source `Rope::line_to_char`: character index of the start of a line (the index
past the end for `line ≥ len_lines`). -/
def line_to_char : List Char → Nat → Nat
  | _, 0 => 0
  | [], _ + 1 => 0
  | '\r' :: '\n' :: rest, n + 1 => line_to_char rest n + 2
  | c :: rest, n + 1 =>
      if isLinebreak c then line_to_char rest n + 1 else line_to_char rest (n + 1) + 1

/-- Source `Rope::char_to_line`: the line containing a character index (a line's
terminating break belongs to that line; the index one past a CRLF's CR is
still on the line the CRLF terminates). -/
def char_to_line : List Char → Nat → Nat
  | _, 0 => 0
  | [], _ + 1 => 0
  | '\r' :: '\n' :: _, 1 => 0
  | '\r' :: '\n' :: rest, n + 2 => char_to_line rest n + 1
  | c :: rest, n + 1 => char_to_line rest n + (if isLinebreak c then 1 else 0)

/-- Source `Rope::line(i).len_chars()`: length of line `i` including its
terminating break. -/
def line_len (s : List Char) (i : Nat) : Nat :=
  line_to_char s (i + 1) - line_to_char s i

/-- Source `Rope::remove(a..b)` on the character list. -/
def removeRange (s : List Char) (a b : Nat) : List Char :=
  s.take a ++ s.drop b

/-- Source `Rope::insert(i, text)` on the character list. -/
def insertList (s : List Char) (i : Nat) (t : List Char) : List Char :=
  s.take i ++ t ++ s.drop i

/-- Rust `str::len`: the UTF-8 byte length of the text.  (`insert_chars`
passes this — not the character count — to the Right mover.) -/
def utf8Len (s : List Char) : Nat :=
  (s.map Char.utf8Size).sum

/-- Modelled from the spec: `settings.rs` is not under `src/`; §6 lists the
configured tab width in spaces as a configuration input.  Fixed at 4. -/
def NUMBER_OF_SPACES_PER_TAB : Nat := 4

/-- The `TextBuffer` state (buffer.rs:64), restricted to the fields the
embedded operations read or write.  The rendering-only fields (layout
handles, pixel origins, caret width) are external-collaborator state that no
embedded operation consults.  `caret_is_trailing` is an `i32` used as 0/1. -/
structure TextBuffer where
  buffer : List Char
  caret_char_pos : Nat
  caret_char_anchor : Nat
  caret_is_trailing : Nat
  cached_char_offset : Nat
  top_line : Nat
  bot_line : Nat
  absolute_char_pos_start : Nat
  absolute_char_pos_end : Nat
  text_visible_line_count : Nat
  lsp_version : Nat
  semantic_tokens : List Nat
deriving DecidableEq, Repr

/-- Source `TextBuffer::new` (buffer.rs:113): fresh caret state and
`lsp_versioned_identifier.version = 1`. -/
def TextBuffer.new (content : List Char) : TextBuffer :=
  { buffer := content
    caret_char_pos := 0
    caret_char_anchor := 0
    caret_is_trailing := 0
    cached_char_offset := 0
    top_line := 0
    bot_line := 0
    absolute_char_pos_start := 0
    absolute_char_pos_end := 0
    text_visible_line_count := 0
    lsp_version := 1
    semantic_tokens := [] }

/-- Source `get_caret_absolute_pos` (buffer.rs:190). -/
def get_caret_absolute_pos (tb : TextBuffer) : Nat :=
  tb.caret_char_pos + tb.caret_is_trailing

/-- Source `get_current_line` (buffer.rs:910). -/
def get_current_line (tb : TextBuffer) : Nat :=
  char_to_line tb.buffer (get_caret_absolute_pos tb)

/-- Source `linebreaks_before_line` (buffer.rs:983): width (0, 1 or 2) of the
line break immediately before the start of `line`. -/
def linebreaks_before_line (s : List Char) (line : Nat) : Nat :=
  let p := line_to_char s line
  if p = 0 then 0
  else
    match s[p - 1]? with
    | some '\n' => if 2 ≤ p ∧ s[p - 2]? = some '\r' then 2 else 1
    | some c => if isLinebreak c then 1 else 0
    | none => 0

/-- Source `scroll_down` (buffer.rs:194). -/
def scroll_down (tb : TextBuffer) (lines_per_roll : Nat) : TextBuffer :=
  if tb.top_line + lines_per_roll ≥ len_lines tb.buffer then
    { tb with top_line := len_lines tb.buffer - 1 }
  else
    { tb with top_line := tb.top_line + lines_per_roll }

/-- Source `scroll_up` (buffer.rs:204). -/
def scroll_up (tb : TextBuffer) (lines_per_roll : Nat) : TextBuffer :=
  if tb.top_line ≥ lines_per_roll then
    { tb with top_line := tb.top_line - lines_per_roll }
  else
    { tb with top_line := 0 }

/-- The tail of `set_selection` (buffer.rs:351): unless extending, the
anchor follows the caret. -/
def finish_selection (tb : TextBuffer) (extend_current_selection : Bool) : TextBuffer :=
  if extend_current_selection then tb
  else { tb with caret_char_anchor := get_caret_absolute_pos tb }

/-- Body shared by the Up/Down arm of `set_selection` (buffer.rs:330–347)
after the target line and the linebreak count have been chosen. -/
def vertical_move (tb : TextBuffer) (caret_absolute_pos current_line target_line_idx
    target_linebreak_count : Nat) : TextBuffer :=
  let target_line_length := line_len tb.buffer target_line_idx - target_linebreak_count
  let current_offset := caret_absolute_pos - line_to_char tb.buffer current_line
  let desired_offset := max tb.cached_char_offset current_offset
  let new_offset := min target_line_length desired_offset
  let tb' := { tb with
    caret_char_pos := line_to_char tb.buffer target_line_idx + new_offset
    caret_is_trailing := 0
    cached_char_offset := desired_offset }
  if target_line_idx ≥ tb'.bot_line then scroll_down tb' 1
  else if target_line_idx < tb'.top_line then scroll_up tb' 1
  else tb'

/-- Source `set_selection` (buffer.rs:286).  The Left arm's `caret_char_pos -= count`
is an unchecked `usize` subtraction in the source; `Nat` subtraction agrees
with it whenever `count ≤ caret_char_pos`, which theorem `c6` establishes for
the counts the source passes. -/
def set_selection (tb : TextBuffer) (mode : SelectionMode) (count : Nat)
    (extend_current_selection : Bool) : TextBuffer :=
  let caret_absolute_pos := get_caret_absolute_pos tb
  match mode with
  | SelectionMode.Left =>
      let p := if caret_absolute_pos > 0 then caret_absolute_pos - count else caret_absolute_pos
      finish_selection
        { tb with caret_char_pos := p, caret_is_trailing := 0, cached_char_offset := 0 }
        extend_current_selection
  | SelectionMode.Right =>
      let p := if caret_absolute_pos + count ≤ tb.buffer.length
               then caret_absolute_pos + count else tb.buffer.length
      finish_selection
        { tb with caret_char_pos := p, caret_is_trailing := 0, cached_char_offset := 0 }
        extend_current_selection
  | SelectionMode.Up =>
      let current_line := char_to_line tb.buffer caret_absolute_pos
      if current_line = 0 then tb
      else
        finish_selection
          (vertical_move tb caret_absolute_pos current_line (current_line - 1)
            (linebreaks_before_line tb.buffer current_line))
          extend_current_selection
  | SelectionMode.Down =>
      let current_line := char_to_line tb.buffer caret_absolute_pos
      if current_line = len_lines tb.buffer - 1 then tb
      else
        finish_selection
          (vertical_move tb caret_absolute_pos current_line (current_line + 1)
            (linebreaks_before_line tb.buffer (current_line + 1)))
          extend_current_selection

/-- The forward scan of `see_chars` (buffer.rs:996): iterator `next()` from
index `i`, `None` (or a mismatch) fails the match. -/
def see_chars_from (buf : List Char) : Nat → List Char → Bool
  | _, [] => true
  | i, c :: rest =>
      match buf[i]? with
      | some x => x == c && see_chars_from buf (i + 1) rest
      | none => false

/-- Source `see_chars` (buffer.rs:996). -/
def see_chars (tb : TextBuffer) (s : List Char) : Bool :=
  see_chars_from tb.buffer (get_caret_absolute_pos tb) s

/-- The backward scan of `see_prev_chars` (buffer.rs:1007): iterator
`prev()` from index `i`, matching the string's characters in reverse. -/
def see_prev_rev (buf : List Char) : Nat → List Char → Bool
  | _, [] => true
  | i, c :: rest =>
      if i = 0 then false
      else
        match buf[i - 1]? with
        | some x => x == c && see_prev_rev buf (i - 1) rest
        | none => false

/-- Source `see_prev_chars` (buffer.rs:1007). -/
def see_prev_chars (tb : TextBuffer) (s : List Char) : Bool :=
  see_prev_rev tb.buffer (get_caret_absolute_pos tb) s.reverse

/-- Length of the run of characters of type `t` at the head of the list:
the loop bodies of `get_boundary_char_count` (buffer.rs:1156, 1169). -/
def countWhileType (t : CharType) : List Char → Nat
  | [] => 0
  | c :: rest => if get_char_type c = t then countWhileType t rest + 1 else 0

/-- Source `get_boundary_char_count` (buffer.rs:1146).  Note the source classifies
the character at `caret_char_pos` (not at the absolute position) and scans
from the absolute position (Forward) or from `caret_char_pos` (Backward). -/
def get_boundary_char_count (tb : TextBuffer) (dir : CharSearchDirection) : Nat :=
  let caret_absolute_pos := get_caret_absolute_pos tb
  match dir with
  | CharSearchDirection.Forward =>
      if caret_absolute_pos = tb.buffer.length then 0
      else
        countWhileType (get_char_type (tb.buffer.getD tb.caret_char_pos ' '))
          (tb.buffer.drop caret_absolute_pos)
  | CharSearchDirection.Backward =>
      if caret_absolute_pos = 0 then 0
      else
        countWhileType (get_char_type (tb.buffer.getD tb.caret_char_pos ' '))
          (tb.buffer.take tb.caret_char_pos).reverse

/-- Source `move_left` (buffer.rs:235). -/
def move_left (tb : TextBuffer) (shift_down : Bool) : TextBuffer :=
  let count := if see_prev_chars tb ['\r', '\n'] then 2 else 1
  set_selection tb SelectionMode.Left count shift_down

/-- Source `move_right` (buffer.rs:247). -/
def move_right (tb : TextBuffer) (shift_down : Bool) : TextBuffer :=
  let count := if see_chars tb ['\r', '\n'] then 2 else 1
  set_selection tb SelectionMode.Right count shift_down

/-- Source `move_left_by_word` (buffer.rs:240). -/
def move_left_by_word (tb : TextBuffer) (shift_down : Bool) : TextBuffer :=
  let tb1 := set_selection tb SelectionMode.Left 1 shift_down
  let count := get_boundary_char_count tb1 CharSearchDirection.Backward
  set_selection tb1 SelectionMode.Left count shift_down

/-- Source `move_right_by_word` (buffer.rs:252). -/
def move_right_by_word (tb : TextBuffer) (shift_down : Bool) : TextBuffer :=
  let count := get_boundary_char_count tb CharSearchDirection.Forward
  set_selection tb SelectionMode.Right count shift_down

/-- Source `update_view` (buffer.rs:1105): jump `top_line` to the caret's line when
that line left the `[top_line, bot_line]` window.  (`bot_line` is not
recomputed here.) -/
def update_view (tb : TextBuffer) : TextBuffer :=
  let current_line := char_to_line tb.buffer (get_caret_absolute_pos tb)
  if current_line > tb.bot_line ∨ current_line < tb.top_line then
    { tb with top_line := current_line }
  else tb

/-- Source `update_absolute_char_positions` (buffer.rs:1084). -/
def update_absolute_char_positions (tb : TextBuffer) : TextBuffer :=
  let line_count := len_lines tb.buffer
  let tb := if line_count < tb.top_line + 1 then { tb with top_line := line_count - 1 } else tb
  let tb := { tb with bot_line := tb.top_line + (tb.text_visible_line_count - 1) }
  let tb := { tb with absolute_char_pos_start := line_to_char tb.buffer tb.top_line }
  if tb.bot_line ≥ len_lines tb.buffer then
    { tb with absolute_char_pos_end := line_to_char tb.buffer (len_lines tb.buffer) }
  else
    { tb with absolute_char_pos_end :=
        line_to_char tb.buffer tb.bot_line + line_len tb.buffer tb.bot_line }

/-- Modelled from the spec: `lsp_structs.rs` is not under `src/`.  §3/§4.5
describe a change event's coordinates as start and end `(line, col)`. -/
structure ChangeRange where
  startLine : Nat
  startChar : Nat
  endLine : Nat
  endChar : Nat
deriving DecidableEq, Repr

/-- Modelled from the spec: `lsp_structs.rs` is not under `src/`.  §4.5/§6: a
change is either a `(range, text)` pair (incremental) or a bare full `text`
(`range = none`). -/
structure ContentChangeEvent where
  text : List Char
  range : Option ChangeRange
deriving DecidableEq, Repr

/-- Source `TextDocumentContentChangeEvent::new_delete_event`: a range with no
inserted text. -/
def new_delete_event (startLine startChar endLine endChar : Nat) : ContentChangeEvent :=
  { text := [], range := some ⟨startLine, startChar, endLine, endChar⟩ }

/-- Source `TextDocumentContentChangeEvent::new_insert_event`: inserted text at a
(degenerate) range. -/
def new_insert_event (text : List Char) (startLine startChar endLine endChar : Nat) :
    ContentChangeEvent :=
  { text := text, range := some ⟨startLine, startChar, endLine, endChar⟩ }

/-- Modelled from the spec: `lsp_structs.rs` is not under `src/`.  A change
notification bundles a document version with a list of change events (the
uri plays no role in the claims). -/
structure DidChangeNotification where
  version : Nat
  changes : List ContentChangeEvent
deriving DecidableEq, Repr

/-- Source `next_versioned_identifer` (buffer.rs:918) combined with
`DidChangeNotification::new`: bump the version once and attach it to the
outgoing changes.  Every notification the buffer constructs goes through
this. -/
def mk_notification (tb : TextBuffer) (changes : List ContentChangeEvent) :
    TextBuffer × DidChangeNotification :=
  ({ tb with lsp_version := tb.lsp_version + 1 },
   { version := tb.lsp_version + 1, changes := changes })

/-- Source `get_full_did_change_notification` (buffer.rs:173): the whole document as
one rangeless change event, under a freshly bumped version. -/
def get_full_did_change_notification (tb : TextBuffer) :
    TextBuffer × DidChangeNotification :=
  mk_notification tb [{ text := tb.buffer, range := none }]

/-- Source `Editor::process_document_change`, Rust arm (editor.rs:352–356):
rust-analyzer only supports full sync, so the incremental notification the
edit produced is discarded and a fresh full notification (with a second
version bump) is emitted instead. -/
def process_document_change_rust (tb : TextBuffer) : TextBuffer × DidChangeNotification :=
  get_full_did_change_notification tb

/-- The patch applied to the found token's `delta_line` field
(buffer.rs:938–944): add `|Δ|` when the edit moved the caret down,
saturating-subtract it when it moved up. -/
def adjust_delta_line (delta : Int) (delta_line : Nat) : Nat :=
  if 0 < delta then delta_line + delta.natAbs else delta_line - delta.natAbs

/-- Loop body of `preserve_semantic_line_highlights` (buffer.rs:932–948):
walk the token stream five entries at a stride (the loop only reads index
`i` and runs while `i < len`, so a trailing partial group with at least one
entry is still visited), accumulating `delta_line`; at the first token
whose accumulated line exceeds `line_before_edit`, patch that token's
`delta_line` and stop. -/
def preserveLineAux (delta : Int) (line_before_edit : Nat) : Nat → List Nat → List Nat
  | _, [] => []
  | acc_line, delta_line :: rest =>
      if line_before_edit < acc_line + delta_line then
        adjust_delta_line delta delta_line :: rest
      else
        match rest with
        | r1 :: r2 :: r3 :: r4 :: rest' =>
            delta_line :: r1 :: r2 :: r3 :: r4 ::
              preserveLineAux delta line_before_edit (acc_line + delta_line) rest'
        | short => delta_line :: short

/-- Source `preserve_semantic_line_highlights` (buffer.rs:926). -/
def preserve_semantic_line_highlights (tokens : List Nat)
    (line_before_edit line_after_edit : Nat) : List Nat :=
  let delta : Int := (line_after_edit : Int) - (line_before_edit : Int)
  if delta = 0 then tokens
  else preserveLineAux delta line_before_edit 0 tokens

/-- Loop body of `preserve_semantic_char_highlights` (buffer.rs:955–980):
decode every token, and grow by one the length of each token that ends
exactly at the edited `(line, column)`.  (No break: the whole stream is
scanned.)  A trailing group of one or two entries makes the Rust loop index
out of bounds (a panic); the source comments that server data always comes
in multiples of five, and that tail is modelled here as left unchanged. -/
def preserveCharAux (line_pos char_pos_in_line : Nat) : Nat → Nat → List Nat → List Nat
  | _, _, [] => []
  | _, _, [x] => [x]
  | _, _, [x, y] => [x, y]
  | acc_line, acc_start, delta_line :: delta_start :: length :: rest =>
      let line := acc_line + delta_line
      let start := if delta_line = 0 then acc_start + delta_start else delta_start
      let length' := if line = line_pos ∧ start + length = char_pos_in_line
                     then length + 1 else length
      delta_line :: delta_start :: length' ::
        (match rest with
         | r1 :: r2 :: rest' =>
             r1 :: r2 :: preserveCharAux line_pos char_pos_in_line line start rest'
         | short => short)

/-- Source `preserve_semantic_char_highlights` (buffer.rs:955). -/
def preserve_semantic_char_highlights (tokens : List Nat)
    (line_pos char_pos_in_line : Nat) : List Nat :=
  preserveCharAux line_pos char_pos_in_line 0 0 tokens

/-- Source `delete_selection` (buffer.rs:402).  Coordinates of both selection ends
are computed before the removal; the caret and the anchor land on the lower
end; the highlight correction runs before the trailing bit is cleared (so it
still sees the old trailing offset); `update_view` runs last. -/
def delete_selection (tb : TextBuffer) : TextBuffer × ContentChangeEvent :=
  let caret_absolute_pos := get_caret_absolute_pos tb
  let line := char_to_line tb.buffer caret_absolute_pos
  let char_pos := caret_absolute_pos - line_to_char tb.buffer line
  let (tb1, change_event) :=
    if caret_absolute_pos < tb.caret_char_anchor then
      let end_line := char_to_line tb.buffer tb.caret_char_anchor
      let end_char := tb.caret_char_anchor - line_to_char tb.buffer end_line
      ({ tb with
          buffer := removeRange tb.buffer caret_absolute_pos tb.caret_char_anchor
          caret_char_pos := caret_absolute_pos
          caret_char_anchor := caret_absolute_pos },
       new_delete_event line char_pos end_line end_char)
    else
      let start_line := char_to_line tb.buffer tb.caret_char_anchor
      let start_char := tb.caret_char_anchor - line_to_char tb.buffer start_line
      ({ tb with
          buffer := removeRange tb.buffer tb.caret_char_anchor caret_absolute_pos
          caret_char_pos :=
            caret_absolute_pos - (caret_absolute_pos - tb.caret_char_anchor) },
       new_delete_event start_line start_char line char_pos)
  let tb2 := { tb1 with semantic_tokens :=
      preserve_semantic_line_highlights tb1.semantic_tokens line (get_current_line tb1) }
  let tb3 := { tb2 with caret_is_trailing := 0 }
  (update_view tb3, change_event)

/-- Tail of `insert_chars` (buffer.rs:469–479) after the optional selection
deletion: record the caret's pre-insert coordinates, splice the text in,
move Right by the text's *byte* length, patch the highlight lines, and wrap
the accumulated changes in a freshly versioned notification. -/
def insert_chars_core (tb : TextBuffer) (chars : List Char)
    (changes : List ContentChangeEvent) : TextBuffer × DidChangeNotification :=
  let caret_absolute_pos := get_caret_absolute_pos tb
  let line := char_to_line tb.buffer caret_absolute_pos
  let char_pos := caret_absolute_pos - line_to_char tb.buffer line
  let tb1 := { tb with buffer := insertList tb.buffer caret_absolute_pos chars }
  let tb2 := set_selection tb1 SelectionMode.Right (utf8Len chars) false
  let tb3 := { tb2 with semantic_tokens :=
      preserve_semantic_line_highlights tb2.semantic_tokens line (get_current_line tb2) }
  mk_notification tb3 (changes ++ [new_insert_event chars line char_pos line char_pos])

/-- Source `insert_chars` (buffer.rs:461). -/
def insert_chars (tb : TextBuffer) (chars : List Char) :
    TextBuffer × DidChangeNotification :=
  let (tb0, changes) :=
    if get_caret_absolute_pos tb ≠ tb.caret_char_anchor then
      let (tb', ev) := delete_selection tb
      (tb', [ev])
    else (tb, [])
  insert_chars_core tb0 chars changes

/-- Tail of `insert_char` (buffer.rs:490–502).  The `u16` argument is cast
`as u8 as char` in the source: only `character mod 256` survives, both in
the rope and in the change event. -/
def insert_char_core (tb : TextBuffer) (character : Nat)
    (changes : List ContentChangeEvent) : TextBuffer × DidChangeNotification :=
  let caret_absolute_pos := get_caret_absolute_pos tb
  let line := char_to_line tb.buffer caret_absolute_pos
  let char_pos := caret_absolute_pos - line_to_char tb.buffer line
  let ch := Char.ofNat (character % 256)
  let tb1 := { tb with buffer := insertList tb.buffer caret_absolute_pos [ch] }
  let tb2 := set_selection tb1 SelectionMode.Right 1 false
  let tb3 := { tb2 with semantic_tokens :=
      preserve_semantic_char_highlights tb2.semantic_tokens line char_pos }
  mk_notification tb3 (changes ++ [new_insert_event [ch] line char_pos line char_pos])

/-- Source `insert_char` (buffer.rs:482). -/
def insert_char (tb : TextBuffer) (character : Nat) :
    TextBuffer × DidChangeNotification :=
  let (tb0, changes) :=
    if get_caret_absolute_pos tb ≠ tb.caret_char_anchor then
      let (tb', ev) := delete_selection tb
      (tb', [ev])
    else (tb, [])
  insert_char_core tb0 character changes

/-- Source `delete_right` (buffer.rs:505).  With a selection active it defers to
`delete_selection`; otherwise it removes a CRLF pair, a tab's worth of
spaces (checked, as in the source, *behind* the caret) or one character
ahead of the caret, without moving the caret.  When the removal joins a
following line up into line 0, the source's `line - 1` underflows a `usize`
(a debug-build panic); the `Nat` subtraction below saturates instead — a
path none of the verified claims exercises. -/
def delete_right (tb : TextBuffer) : TextBuffer × DidChangeNotification :=
  let caret_absolute_pos := get_caret_absolute_pos tb
  let line := char_to_line tb.buffer caret_absolute_pos
  let char_pos := caret_absolute_pos - line_to_char tb.buffer line
  if caret_absolute_pos ≠ tb.caret_char_anchor then
    let (tb1, ev) := delete_selection tb
    mk_notification tb1 [ev]
  else
    let offset :=
      if see_chars tb ['\r', '\n'] then 2
      else if see_prev_chars tb (List.replicate NUMBER_OF_SPACES_PER_TAB ' ') then
        NUMBER_OF_SPACES_PER_TAB
      else 1
    let next_char_pos := min (caret_absolute_pos + offset) tb.buffer.length
    let new_line := char_to_line tb.buffer next_char_pos
    let new_char := next_char_pos - line_to_char tb.buffer new_line
    let tb1 := { tb with buffer := removeRange tb.buffer caret_absolute_pos next_char_pos }
    let tb2 :=
      if new_line > line then
        { tb1 with semantic_tokens :=
            preserve_semantic_line_highlights tb1.semantic_tokens line (line - 1) }
      else tb1
    mk_notification tb2 [new_delete_event line char_pos new_line new_char]

/-- Source `delete_left` (buffer.rs:554). -/
def delete_left (tb : TextBuffer) : TextBuffer × DidChangeNotification :=
  let caret_absolute_pos := get_caret_absolute_pos tb
  let line := char_to_line tb.buffer caret_absolute_pos
  let char_pos := caret_absolute_pos - line_to_char tb.buffer line
  if caret_absolute_pos ≠ tb.caret_char_anchor then
    let (tb1, ev) := delete_selection tb
    mk_notification tb1 [ev]
  else
    let offset :=
      if see_prev_chars tb ['\r', '\n'] then 2
      else if see_prev_chars tb (List.replicate NUMBER_OF_SPACES_PER_TAB ' ') then
        NUMBER_OF_SPACES_PER_TAB
      else 1
    let previous_char_pos := caret_absolute_pos - offset
    let tb1 := { tb with buffer := removeRange tb.buffer previous_char_pos caret_absolute_pos }
    let tb2 := set_selection tb1 SelectionMode.Left offset false
    let tb3 := { tb2 with semantic_tokens :=
        preserve_semantic_line_highlights tb2.semantic_tokens line (get_current_line tb2) }
    let new_line := char_to_line tb3.buffer previous_char_pos
    let new_char := previous_char_pos - line_to_char tb3.buffer new_line
    mk_notification tb3 [new_delete_event new_line new_char line char_pos]

/-- The buffer operations that construct a change notification (each calls
`next_versioned_identifer` exactly once on every path). -/
inductive EditOp where
  | insChar (c : Nat)
  | insChars (s : List Char)
  | delLeft
  | delRight
deriving DecidableEq, Repr

/-- Dispatch one notification-producing operation. -/
def run_op (tb : TextBuffer) : EditOp → TextBuffer × DidChangeNotification
  | EditOp.insChar c => insert_char tb c
  | EditOp.insChars s => insert_chars tb s
  | EditOp.delLeft => delete_left tb
  | EditOp.delRight => delete_right tb

/-- Run a sequence of operations, collecting the constructed notifications
in order. -/
def run_ops (tb : TextBuffer) : List EditOp → TextBuffer × List DidChangeNotification
  | [] => (tb, [])
  | op :: rest =>
      let (tb1, n) := run_op tb op
      let (tb2, ns) := run_ops tb1 rest
      (tb2, n :: ns)

/-! ## Frame lemmas: which fields each small operation leaves alone -/

@[simp] theorem update_view_buffer (tb : TextBuffer) :
    (update_view tb).buffer = tb.buffer := by
  unfold update_view; dsimp only; split <;> rfl

@[simp] theorem update_view_pos (tb : TextBuffer) :
    (update_view tb).caret_char_pos = tb.caret_char_pos := by
  unfold update_view; dsimp only; split <;> rfl

@[simp] theorem update_view_anchor (tb : TextBuffer) :
    (update_view tb).caret_char_anchor = tb.caret_char_anchor := by
  unfold update_view; dsimp only; split <;> rfl

@[simp] theorem update_view_trailing (tb : TextBuffer) :
    (update_view tb).caret_is_trailing = tb.caret_is_trailing := by
  unfold update_view; dsimp only; split <;> rfl

@[simp] theorem update_view_cached (tb : TextBuffer) :
    (update_view tb).cached_char_offset = tb.cached_char_offset := by
  unfold update_view; dsimp only; split <;> rfl

@[simp] theorem update_view_bot (tb : TextBuffer) :
    (update_view tb).bot_line = tb.bot_line := by
  unfold update_view; dsimp only; split <;> rfl

@[simp] theorem update_view_lsp (tb : TextBuffer) :
    (update_view tb).lsp_version = tb.lsp_version := by
  unfold update_view; dsimp only; split <;> rfl

@[simp] theorem update_view_tokens (tb : TextBuffer) :
    (update_view tb).semantic_tokens = tb.semantic_tokens := by
  unfold update_view; dsimp only; split <;> rfl

@[simp] theorem update_view_visible (tb : TextBuffer) :
    (update_view tb).text_visible_line_count = tb.text_visible_line_count := by
  unfold update_view; dsimp only; split <;> rfl

@[simp] theorem scroll_down_buffer (tb : TextBuffer) (n : Nat) :
    (scroll_down tb n).buffer = tb.buffer := by
  unfold scroll_down; split <;> rfl

@[simp] theorem scroll_down_pos (tb : TextBuffer) (n : Nat) :
    (scroll_down tb n).caret_char_pos = tb.caret_char_pos := by
  unfold scroll_down; split <;> rfl

@[simp] theorem scroll_down_anchor (tb : TextBuffer) (n : Nat) :
    (scroll_down tb n).caret_char_anchor = tb.caret_char_anchor := by
  unfold scroll_down; split <;> rfl

@[simp] theorem scroll_down_trailing (tb : TextBuffer) (n : Nat) :
    (scroll_down tb n).caret_is_trailing = tb.caret_is_trailing := by
  unfold scroll_down; split <;> rfl

@[simp] theorem scroll_down_cached (tb : TextBuffer) (n : Nat) :
    (scroll_down tb n).cached_char_offset = tb.cached_char_offset := by
  unfold scroll_down; split <;> rfl

@[simp] theorem scroll_down_bot (tb : TextBuffer) (n : Nat) :
    (scroll_down tb n).bot_line = tb.bot_line := by
  unfold scroll_down; split <;> rfl

@[simp] theorem scroll_down_lsp (tb : TextBuffer) (n : Nat) :
    (scroll_down tb n).lsp_version = tb.lsp_version := by
  unfold scroll_down; split <;> rfl

@[simp] theorem scroll_down_tokens (tb : TextBuffer) (n : Nat) :
    (scroll_down tb n).semantic_tokens = tb.semantic_tokens := by
  unfold scroll_down; split <;> rfl

@[simp] theorem scroll_up_buffer (tb : TextBuffer) (n : Nat) :
    (scroll_up tb n).buffer = tb.buffer := by
  unfold scroll_up; split <;> rfl

@[simp] theorem scroll_up_pos (tb : TextBuffer) (n : Nat) :
    (scroll_up tb n).caret_char_pos = tb.caret_char_pos := by
  unfold scroll_up; split <;> rfl

@[simp] theorem scroll_up_anchor (tb : TextBuffer) (n : Nat) :
    (scroll_up tb n).caret_char_anchor = tb.caret_char_anchor := by
  unfold scroll_up; split <;> rfl

@[simp] theorem scroll_up_trailing (tb : TextBuffer) (n : Nat) :
    (scroll_up tb n).caret_is_trailing = tb.caret_is_trailing := by
  unfold scroll_up; split <;> rfl

@[simp] theorem scroll_up_cached (tb : TextBuffer) (n : Nat) :
    (scroll_up tb n).cached_char_offset = tb.cached_char_offset := by
  unfold scroll_up; split <;> rfl

@[simp] theorem scroll_up_bot (tb : TextBuffer) (n : Nat) :
    (scroll_up tb n).bot_line = tb.bot_line := by
  unfold scroll_up; split <;> rfl

@[simp] theorem scroll_up_lsp (tb : TextBuffer) (n : Nat) :
    (scroll_up tb n).lsp_version = tb.lsp_version := by
  unfold scroll_up; split <;> rfl

@[simp] theorem scroll_up_tokens (tb : TextBuffer) (n : Nat) :
    (scroll_up tb n).semantic_tokens = tb.semantic_tokens := by
  unfold scroll_up; split <;> rfl

@[simp] theorem finish_selection_buffer (tb : TextBuffer) (e : Bool) :
    (finish_selection tb e).buffer = tb.buffer := by
  unfold finish_selection; split <;> rfl

@[simp] theorem finish_selection_pos (tb : TextBuffer) (e : Bool) :
    (finish_selection tb e).caret_char_pos = tb.caret_char_pos := by
  unfold finish_selection; split <;> rfl

@[simp] theorem finish_selection_trailing (tb : TextBuffer) (e : Bool) :
    (finish_selection tb e).caret_is_trailing = tb.caret_is_trailing := by
  unfold finish_selection; split <;> rfl

@[simp] theorem finish_selection_cached (tb : TextBuffer) (e : Bool) :
    (finish_selection tb e).cached_char_offset = tb.cached_char_offset := by
  unfold finish_selection; split <;> rfl

@[simp] theorem finish_selection_top (tb : TextBuffer) (e : Bool) :
    (finish_selection tb e).top_line = tb.top_line := by
  unfold finish_selection; split <;> rfl

@[simp] theorem finish_selection_bot (tb : TextBuffer) (e : Bool) :
    (finish_selection tb e).bot_line = tb.bot_line := by
  unfold finish_selection; split <;> rfl

@[simp] theorem finish_selection_lsp (tb : TextBuffer) (e : Bool) :
    (finish_selection tb e).lsp_version = tb.lsp_version := by
  unfold finish_selection; split <;> rfl

@[simp] theorem finish_selection_tokens (tb : TextBuffer) (e : Bool) :
    (finish_selection tb e).semantic_tokens = tb.semantic_tokens := by
  unfold finish_selection; split <;> rfl

theorem finish_selection_anchor_false (tb : TextBuffer) :
    (finish_selection tb false).caret_char_anchor = get_caret_absolute_pos tb := rfl

@[simp] theorem vertical_move_buffer (tb : TextBuffer) (cap cl tl tc : Nat) :
    (vertical_move tb cap cl tl tc).buffer = tb.buffer := by
  unfold vertical_move; dsimp only; split
  · simp
  · split <;> simp

@[simp] theorem vertical_move_anchor (tb : TextBuffer) (cap cl tl tc : Nat) :
    (vertical_move tb cap cl tl tc).caret_char_anchor = tb.caret_char_anchor := by
  unfold vertical_move; dsimp only; split
  · simp
  · split <;> simp

@[simp] theorem vertical_move_lsp (tb : TextBuffer) (cap cl tl tc : Nat) :
    (vertical_move tb cap cl tl tc).lsp_version = tb.lsp_version := by
  unfold vertical_move; dsimp only; split
  · simp
  · split <;> simp

@[simp] theorem vertical_move_tokens (tb : TextBuffer) (cap cl tl tc : Nat) :
    (vertical_move tb cap cl tl tc).semantic_tokens = tb.semantic_tokens := by
  unfold vertical_move; dsimp only; split
  · simp
  · split <;> simp

@[simp] theorem vertical_move_trailing (tb : TextBuffer) (cap cl tl tc : Nat) :
    (vertical_move tb cap cl tl tc).caret_is_trailing = 0 := by
  unfold vertical_move; dsimp only; split
  · simp
  · split <;> simp

theorem vertical_move_pos (tb : TextBuffer) (cap cl tl tc : Nat) :
    (vertical_move tb cap cl tl tc).caret_char_pos =
      line_to_char tb.buffer tl +
        min (line_len tb.buffer tl - tc)
          (max tb.cached_char_offset (cap - line_to_char tb.buffer cl)) := by
  unfold vertical_move; dsimp only; split
  · simp
  · split <;> simp

theorem vertical_move_cached (tb : TextBuffer) (cap cl tl tc : Nat) :
    (vertical_move tb cap cl tl tc).cached_char_offset =
      max tb.cached_char_offset (cap - line_to_char tb.buffer cl) := by
  unfold vertical_move; dsimp only; split
  · simp
  · split <;> simp

theorem set_selection_buffer (tb : TextBuffer) (m : SelectionMode) (c : Nat) (e : Bool) :
    (set_selection tb m c e).buffer = tb.buffer := by
  cases m <;> simp only [set_selection] <;> try simp
  all_goals split <;> simp

theorem set_selection_lsp (tb : TextBuffer) (m : SelectionMode) (c : Nat) (e : Bool) :
    (set_selection tb m c e).lsp_version = tb.lsp_version := by
  cases m <;> simp only [set_selection] <;> try simp
  all_goals split <;> simp

theorem set_selection_tokens (tb : TextBuffer) (m : SelectionMode) (c : Nat) (e : Bool) :
    (set_selection tb m c e).semantic_tokens = tb.semantic_tokens := by
  cases m <;> simp only [set_selection] <;> try simp
  all_goals split <;> simp

theorem delete_selection_lsp (tb : TextBuffer) :
    ((delete_selection tb).1).lsp_version = tb.lsp_version := by
  unfold delete_selection; dsimp only; split <;> simp

/-! ## Characterizations of the horizontal arms and the CRLF probes -/

theorem set_selection_left_spec (tb : TextBuffer) (c : Nat) :
    set_selection tb SelectionMode.Left c false =
      { tb with
        caret_char_pos :=
          if get_caret_absolute_pos tb > 0 then get_caret_absolute_pos tb - c
          else get_caret_absolute_pos tb
        caret_char_anchor :=
          if get_caret_absolute_pos tb > 0 then get_caret_absolute_pos tb - c
          else get_caret_absolute_pos tb
        caret_is_trailing := 0
        cached_char_offset := 0 } := rfl

theorem set_selection_right_spec (tb : TextBuffer) (c : Nat) :
    set_selection tb SelectionMode.Right c false =
      { tb with
        caret_char_pos :=
          if get_caret_absolute_pos tb + c ≤ tb.buffer.length then get_caret_absolute_pos tb + c
          else tb.buffer.length
        caret_char_anchor :=
          if get_caret_absolute_pos tb + c ≤ tb.buffer.length then get_caret_absolute_pos tb + c
          else tb.buffer.length
        caret_is_trailing := 0
        cached_char_offset := 0 } := rfl

theorem see_chars_pair (tb : TextBuffer) (a b : Char) :
    see_chars tb [a, b] = true ↔
      tb.buffer[get_caret_absolute_pos tb]? = some a ∧
      tb.buffer[get_caret_absolute_pos tb + 1]? = some b := by
  cases h1 : tb.buffer[get_caret_absolute_pos tb]? with
  | none => simp [see_chars, see_chars_from, h1]
  | some x =>
    cases h2 : tb.buffer[get_caret_absolute_pos tb + 1]? with
    | none => simp [see_chars, see_chars_from, h1, h2]
    | some y => simp [see_chars, see_chars_from, h1, h2, Bool.and_eq_true, beq_iff_eq]

theorem see_prev_rev_two (buf : List Char) (i : Nat) (b a : Char) :
    see_prev_rev buf i [b, a] = true ↔
      2 ≤ i ∧ buf[i - 1]? = some b ∧ buf[i - 1 - 1]? = some a := by
  by_cases h0 : i = 0
  · subst h0
    simp [see_prev_rev]
  · by_cases h0' : i - 1 = 0
    · have hi : i = 1 := by omega
      subst hi
      cases h1 : buf[0]? with
      | none => simp [see_prev_rev, h1]
      | some x => simp [see_prev_rev, h1]
    · cases h1 : buf[i - 1]? with
      | none => simp [see_prev_rev, h0, h1]
      | some x =>
        cases h2 : buf[i - 1 - 1]? with
        | none => simp [see_prev_rev, h0, h0', h1, h2]
        | some y =>
          simp [see_prev_rev, h0, h0', h1, h2, beq_iff_eq]
          intro hx hy
          omega

theorem see_prev_pair (tb : TextBuffer) (a b : Char) :
    see_prev_chars tb [a, b] = true ↔
      2 ≤ get_caret_absolute_pos tb ∧
      tb.buffer[get_caret_absolute_pos tb - 1]? = some b ∧
      tb.buffer[get_caret_absolute_pos tb - 2]? = some a := by
  have h := see_prev_rev_two tb.buffer (get_caret_absolute_pos tb) b a
  have h21 : get_caret_absolute_pos tb - 1 - 1 = get_caret_absolute_pos tb - 2 := by omega
  rw [h21] at h
  simpa [see_prev_chars] using h

/-! ## Claim C2: word-boundary motion -/

/-- The §8 word-motion test state: buffer `"foo_bar baz"`, caret at index 0,
no selection. -/
def wordMotionBuffer : TextBuffer :=
  TextBuffer.new ['f', 'o', 'o', '_', 'b', 'a', 'r', ' ', 'b', 'a', 'z']

/-- C2 (counterexample): in `"foo_bar baz"` the second forward word motion
stops at index 8 (just past the space run), not at index 11 as claimed. -/
theorem c2_counterexample :
    (move_right_by_word (move_right_by_word wordMotionBuffer false) false).caret_char_pos = 8 ∧
    (8 : Nat) ≠ 11 := by
  decide

/-- C2 (amended): in the buffer `"foo_bar baz"` with the caret at index 0 and
no selection, `move_right_by_word` stops after each homogeneous character-class
run: the first motion lands at index 7 (end of `"foo_bar"`, underscore counted
in the Word class), the second at index 8 (end of the space run), and a third
at index 11 (end of `"baz"`). -/
theorem c2_word_motion :
    (move_right_by_word wordMotionBuffer false).caret_char_pos = 7 ∧
    (move_right_by_word (move_right_by_word wordMotionBuffer false) false).caret_char_pos = 8 ∧
    (move_right_by_word (move_right_by_word (move_right_by_word wordMotionBuffer false) false)
        false).caret_char_pos = 11 ∧
    (move_right_by_word (move_right_by_word (move_right_by_word wordMotionBuffer false) false)
        false).caret_char_anchor = 11 := by
  decide

/-! ## Claim C10: `insert_char` truncates its 16-bit argument to 8 bits -/

/-- C10: `insert_char` casts its `u16` argument `as u8 as char`
(buffer.rs:494, 499): for every input code unit `c` (with no selection
active), the character spliced into the document and the character reported
in the change event are both `Char.ofNat (c % 256)`, and for `c > 255` the
code `c % 256` differs from `c`, so the inserted character is not the one
given. -/
theorem c10_insert_char_truncation (tb : TextBuffer) (c : Nat)
    (h : get_caret_absolute_pos tb = tb.caret_char_anchor) :
    (insert_char tb c).1.buffer =
      insertList tb.buffer (get_caret_absolute_pos tb) [Char.ofNat (c % 256)] ∧
    (insert_char tb c).2.changes =
      [new_insert_event [Char.ofNat (c % 256)]
        (char_to_line tb.buffer (get_caret_absolute_pos tb))
        (get_caret_absolute_pos tb -
          line_to_char tb.buffer (char_to_line tb.buffer (get_caret_absolute_pos tb)))
        (char_to_line tb.buffer (get_caret_absolute_pos tb))
        (get_caret_absolute_pos tb -
          line_to_char tb.buffer (char_to_line tb.buffer (get_caret_absolute_pos tb)))] ∧
    (255 < c → c % 256 ≠ c) := by
  have hni : insert_char tb c = insert_char_core tb c [] := by
    unfold insert_char
    rw [if_neg (not_not_intro h)]
  refine ⟨?_, ?_, ?_⟩
  · rw [hni]
    simp [insert_char_core, mk_notification, set_selection_buffer]
  · rw [hni]
    simp [insert_char_core, mk_notification]
  · intro hc
    have := Nat.mod_lt c (show 0 < 256 by omega)
    omega

/-- C10 (witness): truncation at the concrete state `new "ab"` with code
unit 353 (= 97 + 256): the inserted character is `'a'` = `Char.ofNat 97`. -/
theorem c10_witness :
    get_caret_absolute_pos (TextBuffer.new ['a', 'b']) =
      (TextBuffer.new ['a', 'b']).caret_char_anchor ∧
    ((insert_char (TextBuffer.new ['a', 'b']) 353).1.buffer =
      insertList (TextBuffer.new ['a', 'b']).buffer
        (get_caret_absolute_pos (TextBuffer.new ['a', 'b'])) [Char.ofNat (353 % 256)] ∧
    (insert_char (TextBuffer.new ['a', 'b']) 353).2.changes =
      [new_insert_event [Char.ofNat (353 % 256)]
        (char_to_line (TextBuffer.new ['a', 'b']).buffer
          (get_caret_absolute_pos (TextBuffer.new ['a', 'b'])))
        (get_caret_absolute_pos (TextBuffer.new ['a', 'b']) -
          line_to_char (TextBuffer.new ['a', 'b']).buffer
            (char_to_line (TextBuffer.new ['a', 'b']).buffer
              (get_caret_absolute_pos (TextBuffer.new ['a', 'b']))))
        (char_to_line (TextBuffer.new ['a', 'b']).buffer
          (get_caret_absolute_pos (TextBuffer.new ['a', 'b'])))
        (get_caret_absolute_pos (TextBuffer.new ['a', 'b']) -
          line_to_char (TextBuffer.new ['a', 'b']).buffer
            (char_to_line (TextBuffer.new ['a', 'b']).buffer
              (get_caret_absolute_pos (TextBuffer.new ['a', 'b']))))] ∧
    (255 < 353 → 353 % 256 ≠ 353)) :=
  ⟨by decide, c10_insert_char_truncation (TextBuffer.new ['a', 'b']) 353 (by decide)⟩

/-! ## Claim C1: Right-then-Left round trip -/

/-- A valid caret state sitting strictly between the CR and the LF of a CRLF
pair: buffer `"\r\n"`, position 1, anchor 1, no trailing bit. -/
def crlfInteriorBuffer : TextBuffer :=
  { TextBuffer.new ['\r', '\n'] with caret_char_pos := 1, caret_char_anchor := 1 }

/-- C1 (counterexample): at the valid caret position 1 inside the CRLF pair
of `"\r\n"` (no trailing bit, no selection, not at document end),
`move_right` advances to 2 (count 1: the two characters ahead are not a CRLF
pair) but `move_left` then treats the CRLF behind as atomic (count 2) and
lands at 0, so the round trip does not restore the position. -/
theorem c1_counterexample :
    crlfInteriorBuffer.caret_char_pos = 1 ∧
    crlfInteriorBuffer.caret_char_anchor = 1 ∧
    crlfInteriorBuffer.caret_is_trailing = 0 ∧
    crlfInteriorBuffer.caret_char_pos < crlfInteriorBuffer.buffer.length ∧
    (move_left (move_right crlfInteriorBuffer false) false).caret_char_pos = 0 ∧
    (0 : Nat) ≠ 1 := by
  decide

/-- C1 (amended): for every valid caret position with no trailing bit and no
active selection that does not sit strictly between the CR and LF of a CRLF
pair, `move_right` followed by `move_left` restores the original position and
anchor; at the document end the Right move leaves the caret position
unchanged (the subsequent Left move then does move the caret, as the source
behaves). -/
theorem c1_move_roundtrip :
    (∀ tb : TextBuffer,
      tb.caret_is_trailing = 0 →
      tb.caret_char_anchor = tb.caret_char_pos →
      tb.caret_char_pos < tb.buffer.length →
      ¬(1 ≤ tb.caret_char_pos ∧ tb.buffer[tb.caret_char_pos - 1]? = some '\r' ∧
          tb.buffer[tb.caret_char_pos]? = some '\n') →
      (move_left (move_right tb false) false).caret_char_pos = tb.caret_char_pos ∧
      (move_left (move_right tb false) false).caret_char_anchor = tb.caret_char_pos) ∧
    (∀ tb : TextBuffer,
      tb.caret_is_trailing = 0 →
      tb.caret_char_pos = tb.buffer.length →
      (move_right tb false).caret_char_pos = tb.caret_char_pos) := by
  constructor
  · intro tb htr hanc hlt hcrlf
    have hcap : get_caret_absolute_pos tb = tb.caret_char_pos := by
      simp [get_caret_absolute_pos, htr]
    by_cases hsc : see_chars tb ['\r', '\n'] = true
    · -- a CRLF pair lies ahead of the caret: both moves use count 2
      obtain ⟨h1, h2⟩ := (see_chars_pair tb '\r' '\n').1 hsc
      rw [hcap] at h1 h2
      have hlen2 : tb.caret_char_pos + 1 < tb.buffer.length := (List.getElem?_eq_some.mp h2).1
      have hmr : move_right tb false = set_selection tb SelectionMode.Right 2 false := by
        unfold move_right; rw [hsc]; rfl
      rw [hmr, set_selection_right_spec]
      rw [hcap, if_pos (by omega)]
      -- the state after the Right move, as an explicit record
      generalize hr1 : ({ tb with
        caret_char_pos := tb.caret_char_pos + 2
        caret_char_anchor := tb.caret_char_pos + 2
        caret_is_trailing := 0
        cached_char_offset := 0 } : TextBuffer) = r1
      have hr1buf : r1.buffer = tb.buffer := by rw [← hr1]
      have hr1cap : get_caret_absolute_pos r1 = tb.caret_char_pos + 2 := by
        rw [← hr1]; rfl
      have hsp : see_prev_chars r1 ['\r', '\n'] = true := by
        rw [see_prev_pair, hr1cap, hr1buf]
        refine ⟨by omega, ?_, ?_⟩
        · rw [show tb.caret_char_pos + 2 - 1 = tb.caret_char_pos + 1 by omega]; exact h2
        · rw [show tb.caret_char_pos + 2 - 2 = tb.caret_char_pos by omega]; exact h1
      have hml : move_left r1 false = set_selection r1 SelectionMode.Left 2 false := by
        unfold move_left; rw [hsp]; rfl
      rw [hml, set_selection_left_spec, hr1cap]
      rw [if_pos (by omega)]
      constructor <;> simp
    · -- no CRLF ahead: the Right move uses count 1, and since the caret was
      -- not inside a CRLF pair, so does the Left move back
      have hsc' : see_chars tb ['\r', '\n'] = false := by
        simpa using hsc
      have hmr : move_right tb false = set_selection tb SelectionMode.Right 1 false := by
        unfold move_right; rw [hsc']; rfl
      rw [hmr, set_selection_right_spec]
      rw [hcap, if_pos (by omega)]
      generalize hr1 : ({ tb with
        caret_char_pos := tb.caret_char_pos + 1
        caret_char_anchor := tb.caret_char_pos + 1
        caret_is_trailing := 0
        cached_char_offset := 0 } : TextBuffer) = r1
      have hr1buf : r1.buffer = tb.buffer := by rw [← hr1]
      have hr1cap : get_caret_absolute_pos r1 = tb.caret_char_pos + 1 := by
        rw [← hr1]; rfl
      have hsp : see_prev_chars r1 ['\r', '\n'] = false := by
        rcases hb : see_prev_chars r1 ['\r', '\n'] with _ | _
        · rfl
        · exfalso
          obtain ⟨hge, hb1, hb2⟩ := (see_prev_pair r1 '\r' '\n').1 hb
          rw [hr1cap] at hge hb1 hb2
          rw [hr1buf] at hb1 hb2
          rw [show tb.caret_char_pos + 1 - 1 = tb.caret_char_pos by omega] at hb1
          rw [show tb.caret_char_pos + 1 - 2 = tb.caret_char_pos - 1 by omega] at hb2
          exact hcrlf ⟨by omega, hb2, hb1⟩
      have hml : move_left r1 false = set_selection r1 SelectionMode.Left 1 false := by
        unfold move_left; rw [hsp]; rfl
      rw [hml, set_selection_left_spec, hr1cap]
      rw [if_pos (by omega)]
      constructor <;> simp
  · intro tb htr hpos
    have hcap : get_caret_absolute_pos tb = tb.buffer.length := by
      simp [get_caret_absolute_pos, htr, hpos]
    by_cases hsc : see_chars tb ['\r', '\n'] = true
    · have hmr : move_right tb false = set_selection tb SelectionMode.Right 2 false := by
        unfold move_right; rw [hsc]; rfl
      rw [hmr, set_selection_right_spec, hcap, if_neg (by omega)]
      exact hpos.symm
    · have hsc' : see_chars tb ['\r', '\n'] = false := by simpa using hsc
      have hmr : move_right tb false = set_selection tb SelectionMode.Right 1 false := by
        unfold move_right; rw [hsc']; rfl
      rw [hmr, set_selection_right_spec, hcap, if_neg (by omega)]
      exact hpos.symm

/-- The state `"ab"` with the caret at the document end, for the second half
of the C1 witness. -/
def abEndBuffer : TextBuffer :=
  { TextBuffer.new ['a', 'b'] with caret_char_pos := 2, caret_char_anchor := 2 }

/-- C1 (witness): the round trip at position 0 of `"ab"`, and the Right
no-op at the document end of `"ab"`. -/
theorem c1_witness :
    ((move_left (move_right (TextBuffer.new ['a', 'b']) false) false).caret_char_pos =
        (TextBuffer.new ['a', 'b']).caret_char_pos ∧
      (move_left (move_right (TextBuffer.new ['a', 'b']) false) false).caret_char_anchor =
        (TextBuffer.new ['a', 'b']).caret_char_pos) ∧
    (move_right abEndBuffer false).caret_char_pos = abEndBuffer.caret_char_pos :=
  ⟨c1_move_roundtrip.1 (TextBuffer.new ['a', 'b']) (by decide) (by decide) (by decide)
      (by decide),
   c1_move_roundtrip.2 abEndBuffer (by decide) (by decide)⟩

/-! ## Claim C6: boundary behaviour and in-bounds index arithmetic -/

theorem countWhileType_le (t : CharType) (l : List Char) :
    countWhileType t l ≤ l.length := by
  induction l with
  | nil => simp [countWhileType]
  | cons c rest ih =>
    simp only [countWhileType, List.length_cons]
    split <;> omega

/-- A state at the Left boundary (absolute position 0) with an active
selection (anchor 2) on the buffer `"ab"`. -/
def leftBoundaryBuffer : TextBuffer :=
  { TextBuffer.new ['a', 'b'] with caret_char_anchor := 2 }

/-- C6 (counterexample): `move_left` at absolute position 0 is *not* a
silent no-op: with an active selection it collapses the anchor to 0 and so
changes the state (the caret position and document are unchanged). -/
theorem c6_counterexample :
    get_caret_absolute_pos leftBoundaryBuffer = 0 ∧
    leftBoundaryBuffer.caret_char_anchor = 2 ∧
    (move_left leftBoundaryBuffer false).caret_char_anchor = 0 ∧
    move_left leftBoundaryBuffer false ≠ leftBoundaryBuffer := by
  decide

/-- C6 (amended): boundary behaviour of the cursor model: `Up` on line 0 and
`Down` on the last line return the state entirely unchanged (early `return`
before the anchor update); `Left` at absolute position 0 and `Right` at the
document end leave the document, the caret position and the absolute caret
position unchanged (though they still clear the trailing bit and the column
memory and, when not extending, collapse the anchor); and the count computed
by the backward word scan — the count word motion passes to the Left mover —
never exceeds `caret_char_pos`, so the Left arm's unchecked `usize`
subtraction cannot underflow. -/
theorem c6_boundary_noops :
    (∀ (tb : TextBuffer) (c : Nat) (e : Bool),
      char_to_line tb.buffer (get_caret_absolute_pos tb) = 0 →
      set_selection tb SelectionMode.Up c e = tb) ∧
    (∀ (tb : TextBuffer) (c : Nat) (e : Bool),
      char_to_line tb.buffer (get_caret_absolute_pos tb) = len_lines tb.buffer - 1 →
      set_selection tb SelectionMode.Down c e = tb) ∧
    (∀ (tb : TextBuffer) (c : Nat) (e : Bool),
      get_caret_absolute_pos tb = 0 →
      (set_selection tb SelectionMode.Left c e).buffer = tb.buffer ∧
      (set_selection tb SelectionMode.Left c e).caret_char_pos = 0 ∧
      get_caret_absolute_pos (set_selection tb SelectionMode.Left c e) = 0) ∧
    (∀ (tb : TextBuffer) (c : Nat) (e : Bool),
      get_caret_absolute_pos tb = tb.buffer.length →
      (set_selection tb SelectionMode.Right c e).buffer = tb.buffer ∧
      (set_selection tb SelectionMode.Right c e).caret_char_pos = tb.buffer.length ∧
      get_caret_absolute_pos (set_selection tb SelectionMode.Right c e) = tb.buffer.length) ∧
    (∀ tb : TextBuffer,
      get_boundary_char_count tb CharSearchDirection.Backward ≤ tb.caret_char_pos) := by
  refine ⟨?_, ?_, ?_, ?_, ?_⟩
  · intro tb c e h
    simp [set_selection, h]
  · intro tb c e h
    simp [set_selection, h]
  · intro tb c e h
    have hp : tb.caret_char_pos = 0 := by
      unfold get_caret_absolute_pos at h; omega
    have ht : tb.caret_is_trailing = 0 := by
      unfold get_caret_absolute_pos at h; omega
    refine ⟨set_selection_buffer tb SelectionMode.Left c e, ?_, ?_⟩
    · simp only [set_selection, finish_selection_pos]
      simp [get_caret_absolute_pos, hp, ht]
    · simp only [get_caret_absolute_pos, set_selection, finish_selection_pos,
        finish_selection_trailing]
      simp [get_caret_absolute_pos, hp, ht]
  · intro tb c e h
    have hpt : tb.caret_char_pos + tb.caret_is_trailing = tb.buffer.length := h
    refine ⟨set_selection_buffer tb SelectionMode.Right c e, ?_, ?_⟩
    · simp only [set_selection, finish_selection_pos, get_caret_absolute_pos]
      split <;> omega
    · simp only [get_caret_absolute_pos, set_selection, finish_selection_pos,
        finish_selection_trailing]
      split <;> omega
  · intro tb
    unfold get_boundary_char_count
    dsimp only
    split
    · omega
    · calc countWhileType (get_char_type (tb.buffer.getD tb.caret_char_pos ' '))
            (tb.buffer.take tb.caret_char_pos).reverse ≤
          (tb.buffer.take tb.caret_char_pos).reverse.length := countWhileType_le _ _
        _ = min tb.caret_char_pos tb.buffer.length := by
            simp
        _ ≤ tb.caret_char_pos := Nat.min_le_left _ _

/-- A one-line, one-character buffer for the C6 witness. -/
def singleCharBuffer : TextBuffer := TextBuffer.new ['a']

/-- A state at the Right boundary (absolute position = length) of `"ab"` for
the C6 witness. -/
def rightEndBuffer : TextBuffer :=
  { TextBuffer.new ['a', 'b'] with caret_char_pos := 2, caret_char_anchor := 2 }

/-- C6 (witness): the amended boundary facts at concrete states. -/
theorem c6_witness :
    set_selection singleCharBuffer SelectionMode.Up 1 false = singleCharBuffer ∧
    set_selection singleCharBuffer SelectionMode.Down 1 false = singleCharBuffer ∧
    ((set_selection singleCharBuffer SelectionMode.Left 1 false).buffer =
        singleCharBuffer.buffer ∧
      (set_selection singleCharBuffer SelectionMode.Left 1 false).caret_char_pos = 0 ∧
      get_caret_absolute_pos (set_selection singleCharBuffer SelectionMode.Left 1 false) = 0) ∧
    ((set_selection rightEndBuffer SelectionMode.Right 3 false).buffer =
        rightEndBuffer.buffer ∧
      (set_selection rightEndBuffer SelectionMode.Right 3 false).caret_char_pos =
        rightEndBuffer.buffer.length ∧
      get_caret_absolute_pos (set_selection rightEndBuffer SelectionMode.Right 3 false) =
        rightEndBuffer.buffer.length) ∧
    get_boundary_char_count rightEndBuffer CharSearchDirection.Backward ≤
      rightEndBuffer.caret_char_pos :=
  ⟨c6_boundary_noops.1 singleCharBuffer 1 false (by decide),
   c6_boundary_noops.2.1 singleCharBuffer 1 false (by decide),
   c6_boundary_noops.2.2.1 singleCharBuffer 1 false (by decide),
   c6_boundary_noops.2.2.2.1 rightEndBuffer 3 false (by decide),
   c6_boundary_noops.2.2.2.2 rightEndBuffer⟩

/-! ## Claim C3: vertical motion and column memory -/

/-- Buffer `"abcde\nxy"` (terminator-less last line) with the caret at
column 4 of line 0 and empty column memory. -/
def shortLastLineBuffer : TextBuffer :=
  { TextBuffer.new ['a', 'b', 'c', 'd', 'e', '\n', 'x', 'y'] with
    caret_char_pos := 4, caret_char_anchor := 4 }

/-- C3 (counterexample): moving Down onto the last line `"xy"` of
`"abcde\nxy"` from column 4 clamps to `line_len - linebreaks_before_line
= 2 - 1 = 1` and lands at position 7 (column 1), whereas clamping to the
target line's content length (2, the line has no terminator) would land at
position 8 (column 2). -/
theorem c3_counterexample :
    (set_selection shortLastLineBuffer SelectionMode.Down 1 false).caret_char_pos = 7 ∧
    line_to_char shortLastLineBuffer.buffer 1 +
      min (line_len shortLastLineBuffer.buffer 1)
        (max shortLastLineBuffer.cached_char_offset 4) = 8 ∧
    (7 : Nat) ≠ 8 := by
  decide

/-- Buffer `"abcde\nxy\nabcde"` with the caret at column 4 of line 0, a
3-line viewport, and empty column memory: the §8 column-memory test state. -/
def columnMemoryBuffer : TextBuffer :=
  { TextBuffer.new
      ['a', 'b', 'c', 'd', 'e', '\n', 'x', 'y', '\n', 'a', 'b', 'c', 'd', 'e'] with
    caret_char_pos := 4, caret_char_anchor := 4, bot_line := 2,
    text_visible_line_count := 3 }

/-- The state `"abcde\nxy\nabcde"` with the caret at column 4 of the last
line and empty column memory, for the Up direction of the C3 theorem. -/
def upMotionBuffer : TextBuffer :=
  { TextBuffer.new
      ['a', 'b', 'c', 'd', 'e', '\n', 'x', 'y', '\n', 'a', 'b', 'c', 'd', 'e'] with
    caret_char_pos := 13, caret_char_anchor := 13, bot_line := 2,
    text_visible_line_count := 3 }

/-- C3 (amended): vertical motion computes
`desired_column = max(ColumnMemory, current_column)` and clamps it to
`target_line.len_chars() - linebreaks_before_line(l)`, where `l` is the
*current* line for Up and the *target* line for Down — in both cases the
width of the break immediately before that line, which equals the target
line's content length except when that measured width differs from the
target's own terminator width (e.g. Down onto the terminator-less last
line).  The caret lands at `line_to_char(target_line) +` the clamped
column and `desired_column` is stored in ColumnMemory.  Concretely, in
`"abcde\nxy\nabcde"` with the caret at column 4 of line 0, two Down moves
land at position 8 (column 2 of line 1) and then position 13 (column 4 of
line 2), the column memory holding 4 throughout; and from column 4 of the
last line one Up move lands at position 8 (column 2 of line 1) with column
memory 4. -/
theorem c3_vertical_column_memory :
    (∀ (tb : TextBuffer) (c : Nat) (e : Bool),
      char_to_line tb.buffer (get_caret_absolute_pos tb) ≠ len_lines tb.buffer - 1 →
      (set_selection tb SelectionMode.Down c e).caret_char_pos =
        line_to_char tb.buffer (char_to_line tb.buffer (get_caret_absolute_pos tb) + 1) +
          min (line_len tb.buffer (char_to_line tb.buffer (get_caret_absolute_pos tb) + 1) -
              linebreaks_before_line tb.buffer
                (char_to_line tb.buffer (get_caret_absolute_pos tb) + 1))
            (max tb.cached_char_offset
              (get_caret_absolute_pos tb -
                line_to_char tb.buffer
                  (char_to_line tb.buffer (get_caret_absolute_pos tb)))) ∧
      (set_selection tb SelectionMode.Down c e).cached_char_offset =
        max tb.cached_char_offset
          (get_caret_absolute_pos tb -
            line_to_char tb.buffer (char_to_line tb.buffer (get_caret_absolute_pos tb)))) ∧
    (∀ (tb : TextBuffer) (c : Nat) (e : Bool),
      char_to_line tb.buffer (get_caret_absolute_pos tb) ≠ 0 →
      (set_selection tb SelectionMode.Up c e).caret_char_pos =
        line_to_char tb.buffer (char_to_line tb.buffer (get_caret_absolute_pos tb) - 1) +
          min (line_len tb.buffer (char_to_line tb.buffer (get_caret_absolute_pos tb) - 1) -
              linebreaks_before_line tb.buffer
                (char_to_line tb.buffer (get_caret_absolute_pos tb)))
            (max tb.cached_char_offset
              (get_caret_absolute_pos tb -
                line_to_char tb.buffer
                  (char_to_line tb.buffer (get_caret_absolute_pos tb)))) ∧
      (set_selection tb SelectionMode.Up c e).cached_char_offset =
        max tb.cached_char_offset
          (get_caret_absolute_pos tb -
            line_to_char tb.buffer (char_to_line tb.buffer (get_caret_absolute_pos tb)))) ∧
    (set_selection columnMemoryBuffer SelectionMode.Down 1 false).caret_char_pos = 8 ∧
    (set_selection columnMemoryBuffer SelectionMode.Down 1 false).cached_char_offset = 4 ∧
    (set_selection (set_selection columnMemoryBuffer SelectionMode.Down 1 false)
        SelectionMode.Down 1 false).caret_char_pos = 13 ∧
    (set_selection (set_selection columnMemoryBuffer SelectionMode.Down 1 false)
        SelectionMode.Down 1 false).cached_char_offset = 4 ∧
    (set_selection upMotionBuffer SelectionMode.Up 1 false).caret_char_pos = 8 ∧
    (set_selection upMotionBuffer SelectionMode.Up 1 false).cached_char_offset = 4 := by
  refine ⟨?_, ?_, by decide, by decide, by decide, by decide, by decide, by decide⟩
  · intro tb c e h
    constructor
    · simp only [set_selection]
      rw [if_neg h, finish_selection_pos, vertical_move_pos]
    · simp only [set_selection]
      rw [if_neg h, finish_selection_cached, vertical_move_cached]
  · intro tb c e h
    constructor
    · simp only [set_selection]
      rw [if_neg h, finish_selection_pos, vertical_move_pos]
    · simp only [set_selection]
      rw [if_neg h, finish_selection_cached, vertical_move_cached]

/-- C3 (witness): the general Down characterization applied to the concrete
column-memory state, and the general Up characterization applied to the
concrete last-line state. -/
theorem c3_witness :
    ((set_selection columnMemoryBuffer SelectionMode.Down 1 false).caret_char_pos =
      line_to_char columnMemoryBuffer.buffer
          (char_to_line columnMemoryBuffer.buffer
              (get_caret_absolute_pos columnMemoryBuffer) + 1) +
        min (line_len columnMemoryBuffer.buffer
              (char_to_line columnMemoryBuffer.buffer
                  (get_caret_absolute_pos columnMemoryBuffer) + 1) -
            linebreaks_before_line columnMemoryBuffer.buffer
              (char_to_line columnMemoryBuffer.buffer
                  (get_caret_absolute_pos columnMemoryBuffer) + 1))
          (max columnMemoryBuffer.cached_char_offset
            (get_caret_absolute_pos columnMemoryBuffer -
              line_to_char columnMemoryBuffer.buffer
                (char_to_line columnMemoryBuffer.buffer
                  (get_caret_absolute_pos columnMemoryBuffer)))) ∧
    (set_selection columnMemoryBuffer SelectionMode.Down 1 false).cached_char_offset =
      max columnMemoryBuffer.cached_char_offset
        (get_caret_absolute_pos columnMemoryBuffer -
          line_to_char columnMemoryBuffer.buffer
            (char_to_line columnMemoryBuffer.buffer
              (get_caret_absolute_pos columnMemoryBuffer)))) ∧
    ((set_selection upMotionBuffer SelectionMode.Up 1 false).caret_char_pos =
      line_to_char upMotionBuffer.buffer
          (char_to_line upMotionBuffer.buffer
              (get_caret_absolute_pos upMotionBuffer) - 1) +
        min (line_len upMotionBuffer.buffer
              (char_to_line upMotionBuffer.buffer
                  (get_caret_absolute_pos upMotionBuffer) - 1) -
            linebreaks_before_line upMotionBuffer.buffer
              (char_to_line upMotionBuffer.buffer
                  (get_caret_absolute_pos upMotionBuffer)))
          (max upMotionBuffer.cached_char_offset
            (get_caret_absolute_pos upMotionBuffer -
              line_to_char upMotionBuffer.buffer
                (char_to_line upMotionBuffer.buffer
                  (get_caret_absolute_pos upMotionBuffer)))) ∧
    (set_selection upMotionBuffer SelectionMode.Up 1 false).cached_char_offset =
      max upMotionBuffer.cached_char_offset
        (get_caret_absolute_pos upMotionBuffer -
          line_to_char upMotionBuffer.buffer
            (char_to_line upMotionBuffer.buffer
              (get_caret_absolute_pos upMotionBuffer)))) :=
  ⟨c3_vertical_column_memory.1 columnMemoryBuffer 1 false (by decide),
   c3_vertical_column_memory.2.1 upMotionBuffer 1 false (by decide)⟩

/-! ## Claim C4: `delete_selection` -/

theorem removeRange_self (s : List Char) (a : Nat) : removeRange s a a = s :=
  List.take_append_drop a s

theorem preserve_self (t : List Nat) (l : Nat) :
    preserve_semantic_line_highlights t l l = t := by
  simp [preserve_semantic_line_highlights]

theorem update_view_update_view (tb : TextBuffer) :
    update_view (update_view tb) = update_view tb := by
  by_cases h : char_to_line tb.buffer (get_caret_absolute_pos tb) > tb.bot_line ∨
      char_to_line tb.buffer (get_caret_absolute_pos tb) < tb.top_line
  · unfold update_view
    dsimp only
    rw [if_pos h]
    split
    · rfl
    · rfl
  · unfold update_view
    dsimp only
    simp only [if_neg h]

/-- A no-selection state (absolute position equal to the anchor, trailing
bit clear) that `update_view` leaves alone is a fixed point of
`delete_selection`. -/
theorem delete_selection_noop (s : TextBuffer)
    (h : get_caret_absolute_pos s = s.caret_char_anchor)
    (htr : s.caret_is_trailing = 0)
    (huv : update_view s = s) :
    (delete_selection s).1 = s := by
  obtain ⟨buf, pos, anc, tr, cach, top, bot, aps, ape, vis, ver, tok⟩ := s
  simp only [get_caret_absolute_pos] at h
  dsimp only at h htr
  subst htr
  have hp : pos = anc := by omega
  subst hp
  unfold delete_selection
  dsimp only
  rw [if_neg (by simp [get_caret_absolute_pos])]
  have hclean : (⟨removeRange buf pos (get_caret_absolute_pos
      ⟨buf, pos, pos, 0, cach, top, bot, aps, ape, vis, ver, tok⟩), get_caret_absolute_pos
      ⟨buf, pos, pos, 0, cach, top, bot, aps, ape, vis, ver, tok⟩ -
        (get_caret_absolute_pos ⟨buf, pos, pos, 0, cach, top, bot, aps, ape, vis, ver, tok⟩
          - pos), pos, 0, cach, top, bot, aps, ape, vis, ver, tok⟩ : TextBuffer) =
      ⟨buf, pos, pos, 0, cach, top, bot, aps, ape, vis, ver, tok⟩ := by
    simp [get_caret_absolute_pos, removeRange_self]
  simp only [get_caret_absolute_pos, get_current_line] at hclean ⊢
  simp only [Nat.add_zero] at hclean ⊢
  simp only [Nat.sub_self, Nat.sub_zero] at hclean ⊢
  rw [show removeRange buf pos pos = buf from removeRange_self buf pos]
  rw [preserve_self]
  exact huv

/-- The state `"abc"`, caret field 1, anchor 1, trailing bit set: the
position field equals the anchor, yet the absolute position is 2. -/
def trailingSelectionBuffer : TextBuffer :=
  { TextBuffer.new ['a', 'b', 'c'] with
    caret_char_pos := 1, caret_char_anchor := 1, caret_is_trailing := 1 }

/-- C4 (counterexample): with `position == anchor` (both 1) but the trailing
bit set, `delete_selection` is *not* a no-op: it removes the character `'b'`
(the source compares the anchor against `position + trailing`, not against
`position`). -/
theorem c4_counterexample :
    trailingSelectionBuffer.caret_char_pos = trailingSelectionBuffer.caret_char_anchor ∧
    trailingSelectionBuffer.buffer = ['a', 'b', 'c'] ∧
    (delete_selection trailingSelectionBuffer).1.buffer = ['a', 'c'] ∧
    (['a', 'c'] : List Char) ≠ ['a', 'b', 'c'] := by
  decide

/-- C4 (amended): `delete_selection` decides emptiness by the *absolute*
caret position (`position + trailing`), not the `position` field.  When
`position + trailing ≠ anchor` it removes
`[min(position+trailing, anchor), max(position+trailing, anchor))` from the
document, puts both the caret and the anchor at the minimum, and clears the
trailing bit.  When `position + trailing = anchor` it is a no-op on the
document, the absolute position and the anchor, and repeating the call
returns exactly the same state (idempotence). -/
theorem c4_delete_selection (tb : TextBuffer) :
    (get_caret_absolute_pos tb ≠ tb.caret_char_anchor →
      (delete_selection tb).1.buffer =
        removeRange tb.buffer (min (get_caret_absolute_pos tb) tb.caret_char_anchor)
          (max (get_caret_absolute_pos tb) tb.caret_char_anchor) ∧
      (delete_selection tb).1.caret_char_pos =
        min (get_caret_absolute_pos tb) tb.caret_char_anchor ∧
      (delete_selection tb).1.caret_char_anchor =
        min (get_caret_absolute_pos tb) tb.caret_char_anchor ∧
      (delete_selection tb).1.caret_is_trailing = 0) ∧
    (get_caret_absolute_pos tb = tb.caret_char_anchor →
      (delete_selection tb).1.buffer = tb.buffer ∧
      get_caret_absolute_pos (delete_selection tb).1 = get_caret_absolute_pos tb ∧
      (delete_selection tb).1.caret_char_anchor = tb.caret_char_anchor ∧
      (delete_selection (delete_selection tb).1).1 = (delete_selection tb).1) := by
  constructor
  · intro hne
    have hmm : (min (get_caret_absolute_pos tb) tb.caret_char_anchor =
        get_caret_absolute_pos tb ∧ max (get_caret_absolute_pos tb) tb.caret_char_anchor =
        tb.caret_char_anchor) ∨ (min (get_caret_absolute_pos tb) tb.caret_char_anchor =
        tb.caret_char_anchor ∧ max (get_caret_absolute_pos tb) tb.caret_char_anchor =
        get_caret_absolute_pos tb) := by omega
    unfold delete_selection
    dsimp only
    split
    · rename_i hlt
      refine ⟨?_, ?_, ?_, ?_⟩
      · simp only [update_view_buffer]
        rw [show min (get_caret_absolute_pos tb) tb.caret_char_anchor =
            get_caret_absolute_pos tb by omega,
          show max (get_caret_absolute_pos tb) tb.caret_char_anchor =
            tb.caret_char_anchor by omega]
      · simp only [update_view_pos]
        omega
      · simp only [update_view_anchor]
        omega
      · simp only [update_view_trailing]
    · rename_i hge
      refine ⟨?_, ?_, ?_, ?_⟩
      · simp only [update_view_buffer]
        rw [show min (get_caret_absolute_pos tb) tb.caret_char_anchor =
            tb.caret_char_anchor by omega,
          show max (get_caret_absolute_pos tb) tb.caret_char_anchor =
            get_caret_absolute_pos tb by omega]
      · simp only [update_view_pos]
        omega
      · simp only [update_view_anchor]
        omega
      · simp only [update_view_trailing]
  · intro heq
    have hfix : (delete_selection tb).1.buffer = tb.buffer ∧
        (delete_selection tb).1.caret_char_pos = tb.caret_char_anchor ∧
        (delete_selection tb).1.caret_char_anchor = tb.caret_char_anchor ∧
        (delete_selection tb).1.caret_is_trailing = 0 := by
      unfold delete_selection
      dsimp only
      rw [if_neg (by omega)]
      refine ⟨?_, ?_, ?_, ?_⟩
      · simp only [update_view_buffer]
        rw [show get_caret_absolute_pos tb = tb.caret_char_anchor from heq]
        exact removeRange_self tb.buffer tb.caret_char_anchor
      · simp only [update_view_pos]
        omega
      · simp only [update_view_anchor]
      · simp only [update_view_trailing]
    obtain ⟨hb, hp, ha, ht⟩ := hfix
    have hcap : get_caret_absolute_pos (delete_selection tb).1 =
        (delete_selection tb).1.caret_char_anchor := by
      unfold get_caret_absolute_pos
      omega
    refine ⟨hb, ?_, ha, ?_⟩
    · unfold get_caret_absolute_pos at heq ⊢
      omega
    · apply delete_selection_noop _ hcap ht
      obtain ⟨x, hx⟩ : ∃ x, (delete_selection tb).1 = update_view x := by
        unfold delete_selection
        dsimp only
        split <;> exact ⟨_, rfl⟩
      rw [hx, update_view_update_view]

/-- The buffer `"abc"` with the caret at 0 and the anchor at 2: an active selection. -/
def selectionBuffer : TextBuffer :=
  { TextBuffer.new ['a', 'b', 'c'] with caret_char_anchor := 2 }

/-- The buffer `"abc"` with caret and anchor both at 1 and no trailing bit: no
selection. -/
def noSelectionBuffer : TextBuffer :=
  { TextBuffer.new ['a', 'b', 'c'] with caret_char_pos := 1, caret_char_anchor := 1 }

/-- C4 (witness): the amended `delete_selection` facts at a concrete
selection (caret 0, anchor 2) and at a concrete empty selection (both 1). -/
theorem c4_witness :
    ((delete_selection selectionBuffer).1.buffer =
        removeRange selectionBuffer.buffer
          (min (get_caret_absolute_pos selectionBuffer) selectionBuffer.caret_char_anchor)
          (max (get_caret_absolute_pos selectionBuffer) selectionBuffer.caret_char_anchor) ∧
      (delete_selection selectionBuffer).1.caret_char_pos =
        min (get_caret_absolute_pos selectionBuffer) selectionBuffer.caret_char_anchor ∧
      (delete_selection selectionBuffer).1.caret_char_anchor =
        min (get_caret_absolute_pos selectionBuffer) selectionBuffer.caret_char_anchor ∧
      (delete_selection selectionBuffer).1.caret_is_trailing = 0) ∧
    ((delete_selection noSelectionBuffer).1.buffer = noSelectionBuffer.buffer ∧
      get_caret_absolute_pos (delete_selection noSelectionBuffer).1 =
        get_caret_absolute_pos noSelectionBuffer ∧
      (delete_selection noSelectionBuffer).1.caret_char_anchor =
        noSelectionBuffer.caret_char_anchor ∧
      (delete_selection (delete_selection noSelectionBuffer).1).1 =
        (delete_selection noSelectionBuffer).1) :=
  ⟨(c4_delete_selection selectionBuffer).1 (by decide),
   (c4_delete_selection noSelectionBuffer).2 (by decide)⟩

/-! ## Claim C5: insertion -/

theorem insertList_length (s : List Char) (i : Nat) (t : List Char) :
    (insertList s i t).length = s.length + t.length := by
  simp [insertList]
  omega

/-- After `delete_selection` no selection is active: the absolute caret
position equals the anchor. -/
theorem delete_selection_collapses (tb : TextBuffer) :
    get_caret_absolute_pos (delete_selection tb).1 =
      (delete_selection tb).1.caret_char_anchor := by
  unfold delete_selection
  try dsimp only
  split
  · simp [get_caret_absolute_pos]
  · rename_i hge
    unfold get_caret_absolute_pos at hge ⊢
    simp only [update_view_pos, update_view_anchor, update_view_trailing]
    try dsimp only
    omega

/-- C5 (counterexample): inserting the one-character text `"é"` (UTF-8 byte
length 2) at position 0 of `"ab"` advances the caret to 2, not to
`0 + 1` as "advance by the number of inserted characters" requires: the
source passes `str::len()` — the byte length — to the Right mover. -/
theorem c5_counterexample :
    get_caret_absolute_pos (TextBuffer.new ['a', 'b']) = 0 ∧
    (['é'] : List Char).length = 1 ∧
    (insert_chars (TextBuffer.new ['a', 'b']) ['é']).1.caret_char_pos = 2 ∧
    (2 : Nat) ≠ 0 + 1 := by
  decide

/-- C5 (amended): `insert_chars` first routes an active selection through
`delete_selection` (the resulting state is identical to inserting into the
already-deleted state); with no selection it splices the text at the
absolute caret position and advances the caret via the Right mover by the
UTF-8 *byte* length of the text (equal to the character count only for
ASCII), clamped to the new document length; afterwards `anchor = position`
and the trailing bit is clear.  `insert_char` always advances by exactly 1
and likewise leaves `anchor = position`. -/
theorem c5_insertion :
    (∀ (tb : TextBuffer) (chars : List Char),
      get_caret_absolute_pos tb = tb.caret_char_anchor →
      (insert_chars tb chars).1.buffer =
        insertList tb.buffer (get_caret_absolute_pos tb) chars ∧
      (insert_chars tb chars).1.caret_char_pos =
        min (get_caret_absolute_pos tb + utf8Len chars) (tb.buffer.length + chars.length) ∧
      (insert_chars tb chars).1.caret_char_anchor =
        (insert_chars tb chars).1.caret_char_pos ∧
      (insert_chars tb chars).1.caret_is_trailing = 0) ∧
    (∀ (tb : TextBuffer) (chars : List Char),
      get_caret_absolute_pos tb ≠ tb.caret_char_anchor →
      (insert_chars tb chars).1 = (insert_chars (delete_selection tb).1 chars).1) ∧
    (∀ (tb : TextBuffer) (c : Nat),
      get_caret_absolute_pos tb = tb.caret_char_anchor →
      get_caret_absolute_pos tb ≤ tb.buffer.length →
      (insert_char tb c).1.caret_char_pos = get_caret_absolute_pos tb + 1 ∧
      (insert_char tb c).1.caret_char_anchor = (insert_char tb c).1.caret_char_pos ∧
      (insert_char tb c).1.caret_is_trailing = 0) := by
  refine ⟨?_, ?_, ?_⟩
  · intro tb chars h
    have hni : insert_chars tb chars = insert_chars_core tb chars [] := by
      unfold insert_chars
      rw [if_neg (not_not_intro h)]
    rw [hni]
    refine ⟨?_, ?_, ?_, ?_⟩
    · simp [insert_chars_core, mk_notification, set_selection_buffer]
    · simp only [insert_chars_core, mk_notification]
      try dsimp only
      rw [set_selection_right_spec]
      try dsimp only
      rw [insertList_length]
      simp only [get_caret_absolute_pos]
      try dsimp only
      split <;> omega
    · simp only [insert_chars_core, mk_notification]
      try dsimp only
      rw [set_selection_right_spec]
    · simp only [insert_chars_core, mk_notification]
      try dsimp only
      rw [set_selection_right_spec]
  · intro tb chars hne
    have h1 : insert_chars tb chars =
        insert_chars_core (delete_selection tb).1 chars [(delete_selection tb).2] := by
      unfold insert_chars
      rw [if_pos hne]
    have h2 : insert_chars (delete_selection tb).1 chars =
        insert_chars_core (delete_selection tb).1 chars [] := by
      unfold insert_chars
      rw [if_neg (not_not_intro (delete_selection_collapses tb))]
    rw [h1, h2]
    rfl
  · intro tb c h hle
    have hni : insert_char tb c = insert_char_core tb c [] := by
      unfold insert_char
      rw [if_neg (not_not_intro h)]
    rw [hni]
    refine ⟨?_, ?_, ?_⟩
    · simp only [insert_char_core, mk_notification]
      try dsimp only
      rw [set_selection_right_spec]
      try dsimp only
      rw [insertList_length]
      simp only [get_caret_absolute_pos, List.length_singleton] at hle ⊢
      try dsimp only
      split <;> omega
    · simp only [insert_char_core, mk_notification]
      try dsimp only
      rw [set_selection_right_spec]
    · simp only [insert_char_core, mk_notification]
      try dsimp only
      rw [set_selection_right_spec]

/-- The buffer `"abc"` with the caret at 0 and the anchor at 2, for the selection part
of the C5 witness. -/
def insertSelectionBuffer : TextBuffer :=
  { TextBuffer.new ['a', 'b', 'c'] with caret_char_anchor := 2 }

/-- C5 (witness): the amended insertion facts at concrete states. -/
theorem c5_witness :
    ((insert_chars (TextBuffer.new ['a', 'b']) ['x']).1.buffer =
        insertList (TextBuffer.new ['a', 'b']).buffer
          (get_caret_absolute_pos (TextBuffer.new ['a', 'b'])) ['x'] ∧
      (insert_chars (TextBuffer.new ['a', 'b']) ['x']).1.caret_char_pos =
        min (get_caret_absolute_pos (TextBuffer.new ['a', 'b']) + utf8Len ['x'])
          ((TextBuffer.new ['a', 'b']).buffer.length + (['x'] : List Char).length) ∧
      (insert_chars (TextBuffer.new ['a', 'b']) ['x']).1.caret_char_anchor =
        (insert_chars (TextBuffer.new ['a', 'b']) ['x']).1.caret_char_pos ∧
      (insert_chars (TextBuffer.new ['a', 'b']) ['x']).1.caret_is_trailing = 0) ∧
    (insert_chars insertSelectionBuffer ['y']).1 =
      (insert_chars (delete_selection insertSelectionBuffer).1 ['y']).1 ∧
    ((insert_char (TextBuffer.new ['a', 'b']) 120).1.caret_char_pos =
        get_caret_absolute_pos (TextBuffer.new ['a', 'b']) + 1 ∧
      (insert_char (TextBuffer.new ['a', 'b']) 120).1.caret_char_anchor =
        (insert_char (TextBuffer.new ['a', 'b']) 120).1.caret_char_pos ∧
      (insert_char (TextBuffer.new ['a', 'b']) 120).1.caret_is_trailing = 0) :=
  ⟨c5_insertion.1 (TextBuffer.new ['a', 'b']) ['x'] (by decide),
   c5_insertion.2.1 insertSelectionBuffer ['y'] (by decide),
   c5_insertion.2.2 (TextBuffer.new ['a', 'b']) 120 (by decide) (by decide)⟩

/-! ## Claim C7: viewport containment -/

theorem numLinebreaks_cons_of_not_crlf (c : Char) (l : List Char)
    (h : ¬(c = '\r' ∧ l.head? = some '\n')) :
    numLinebreaks (c :: l) = numLinebreaks l + (if isLinebreak c then 1 else 0) := by
  rw [numLinebreaks.eq_def]
  split
  · rename_i heq
    exact absurd heq (by simp)
  · rename_i heq
    exfalso
    apply h
    injection heq with hc hl
    subst hc
    subst hl
    exact ⟨rfl, rfl⟩
  · rename_i hno heq
    injection heq with hc hl
    subst hc
    subst hl
    rfl

/-- The line of any character index is at most the last line index. -/
theorem char_to_line_le_numLinebreaks : ∀ (s : List Char) (n : Nat),
    char_to_line s n ≤ numLinebreaks s := by
  intro s n
  induction s, n using char_to_line.induct
  · simp [char_to_line]
  · simp [char_to_line]
  · simp [char_to_line]
  · rename_i rest n ih
    simp [char_to_line, numLinebreaks]
    omega
  · rename_i c rest n h1 h2 ih
    by_cases hcr : c = '\r' ∧ rest.head? = some '\n'
    · exfalso
      obtain ⟨hc, hh⟩ := hcr
      rcases rest with _ | ⟨d, tail⟩
      · simp at hh
      · simp at hh
        subst hh
        rcases n with _ | m
        · exact h1 tail hc rfl rfl
        · exact h2 tail m hc rfl rfl
    · rw [numLinebreaks_cons_of_not_crlf c rest hcr]
      simp [char_to_line]
      omega

@[simp] theorem update_absolute_char_positions_buffer (tb : TextBuffer) :
    (update_absolute_char_positions tb).buffer = tb.buffer := by
  by_cases hA : len_lines tb.buffer < tb.top_line + 1 <;>
    (unfold update_absolute_char_positions
     try dsimp only) <;>
    [rw [if_pos hA]; rw [if_neg hA]] <;> split <;> rfl

@[simp] theorem update_absolute_char_positions_pos (tb : TextBuffer) :
    (update_absolute_char_positions tb).caret_char_pos = tb.caret_char_pos := by
  by_cases hA : len_lines tb.buffer < tb.top_line + 1 <;>
    (unfold update_absolute_char_positions
     try dsimp only) <;>
    [rw [if_pos hA]; rw [if_neg hA]] <;> split <;> rfl

@[simp] theorem update_absolute_char_positions_trailing (tb : TextBuffer) :
    (update_absolute_char_positions tb).caret_is_trailing = tb.caret_is_trailing := by
  by_cases hA : len_lines tb.buffer < tb.top_line + 1 <;>
    (unfold update_absolute_char_positions
     try dsimp only) <;>
    [rw [if_pos hA]; rw [if_neg hA]] <;> split <;> rfl

theorem update_absolute_char_positions_top (tb : TextBuffer) :
    (update_absolute_char_positions tb).top_line =
      if len_lines tb.buffer < tb.top_line + 1 then len_lines tb.buffer - 1
      else tb.top_line := by
  by_cases hA : len_lines tb.buffer < tb.top_line + 1 <;>
    (unfold update_absolute_char_positions
     try dsimp only) <;>
    [rw [if_pos hA, if_pos hA]; rw [if_neg hA, if_neg hA]] <;> split <;> rfl

theorem update_absolute_char_positions_bot (tb : TextBuffer) :
    (update_absolute_char_positions tb).bot_line =
      (if len_lines tb.buffer < tb.top_line + 1 then len_lines tb.buffer - 1
       else tb.top_line) + (tb.text_visible_line_count - 1) := by
  by_cases hA : len_lines tb.buffer < tb.top_line + 1 <;>
    (unfold update_absolute_char_positions
     try dsimp only) <;>
    [rw [if_pos hA, if_pos hA]; rw [if_neg hA, if_neg hA]] <;> split <;> rfl

/-- One line, one character, one visible line: a well-formed viewport
(`bot_line = top_line + visible - 1`) with the caret at the document end. -/
def tinyViewportBuffer : TextBuffer :=
  { TextBuffer.new ['a'] with
    caret_char_pos := 1, caret_char_anchor := 1, text_visible_line_count := 1 }

/-- C7 (counterexample): a multi-line insertion (modelling a paste) never
calls `update_view` — only `delete_selection` does — so after inserting
`"\nb\nc"` at the end of `"a"` and recomputing the viewport the caret sits
on line 2 while `top_line = bot_line = 0`: the claimed containment
`top_line ≤ caret line ≤ bot_line` fails. -/
theorem c7_counterexample :
    char_to_line
        (update_absolute_char_positions
          (insert_chars tinyViewportBuffer ['\n', 'b', '\n', 'c']).1).buffer
        (get_caret_absolute_pos
          (update_absolute_char_positions
            (insert_chars tinyViewportBuffer ['\n', 'b', '\n', 'c']).1)) = 2 ∧
    (update_absolute_char_positions
      (insert_chars tinyViewportBuffer ['\n', 'b', '\n', 'c']).1).top_line = 0 ∧
    (update_absolute_char_positions
      (insert_chars tinyViewportBuffer ['\n', 'b', '\n', 'c']).1).bot_line = 0 ∧
    ¬((2 : Nat) ≤ 0) := by
  decide

/-- C7 (amended): `update_view` — which among the mutating operations only
`delete_selection` invokes — jumps `top_line` to the caret's line exactly
when that line lies outside `[top_line, bot_line]`; and for any state whose
viewport is well formed (`visible ≥ 1`, `bot_line = top_line + visible - 1`),
running `update_view` followed by the viewport recomputation
`update_absolute_char_positions` restores the containment
`top_line ≤ caret line ≤ bot_line`.  Insertion paths do not run
`update_view`, so the containment can fail after a multi-line paste. -/
theorem c7_viewport (tb : TextBuffer)
    (hv : 1 ≤ tb.text_visible_line_count)
    (hb : tb.bot_line = tb.top_line + tb.text_visible_line_count - 1) :
    (update_view tb).top_line =
      (if char_to_line tb.buffer (get_caret_absolute_pos tb) > tb.bot_line ∨
          char_to_line tb.buffer (get_caret_absolute_pos tb) < tb.top_line
       then char_to_line tb.buffer (get_caret_absolute_pos tb) else tb.top_line) ∧
    (update_absolute_char_positions (update_view tb)).top_line ≤
      char_to_line tb.buffer (get_caret_absolute_pos tb) ∧
    char_to_line tb.buffer (get_caret_absolute_pos tb) ≤
      (update_absolute_char_positions (update_view tb)).bot_line := by
  have hL := char_to_line_le_numLinebreaks tb.buffer (get_caret_absolute_pos tb)
  have htop : (update_view tb).top_line =
      (if char_to_line tb.buffer (get_caret_absolute_pos tb) > tb.bot_line ∨
          char_to_line tb.buffer (get_caret_absolute_pos tb) < tb.top_line
       then char_to_line tb.buffer (get_caret_absolute_pos tb) else tb.top_line) := by
    unfold update_view
    try dsimp only
    split
    · rfl
    · rfl
  have hvv : (update_view tb).text_visible_line_count = tb.text_visible_line_count :=
    update_view_visible tb
  refine ⟨htop, ?_, ?_⟩
  · rw [update_absolute_char_positions_top, update_view_buffer, htop]
    unfold len_lines
    by_cases hc : char_to_line tb.buffer (get_caret_absolute_pos tb) > tb.bot_line ∨
        char_to_line tb.buffer (get_caret_absolute_pos tb) < tb.top_line
    · rw [if_pos hc]
      rcases hc with hc | hc <;> split <;> omega
    · rw [if_neg hc]
      push_neg at hc
      split <;> omega
  · rw [update_absolute_char_positions_bot, update_view_buffer, htop, hvv]
    unfold len_lines
    by_cases hc : char_to_line tb.buffer (get_caret_absolute_pos tb) > tb.bot_line ∨
        char_to_line tb.buffer (get_caret_absolute_pos tb) < tb.top_line
    · rw [if_pos hc]
      rcases hc with hc | hc <;> split <;> omega
    · rw [if_neg hc]
      push_neg at hc
      split <;> omega

/-- C7 (witness): the containment repair at the concrete post-paste state of
the counterexample — once `update_view` *is* run, the caret's line is back
inside the recomputed viewport. -/
theorem c7_witness :
    ((update_view (insert_chars tinyViewportBuffer ['\n', 'b', '\n', 'c']).1).top_line =
      (if char_to_line (insert_chars tinyViewportBuffer ['\n', 'b', '\n', 'c']).1.buffer
            (get_caret_absolute_pos (insert_chars tinyViewportBuffer ['\n', 'b', '\n', 'c']).1) >
            (insert_chars tinyViewportBuffer ['\n', 'b', '\n', 'c']).1.bot_line ∨
          char_to_line (insert_chars tinyViewportBuffer ['\n', 'b', '\n', 'c']).1.buffer
            (get_caret_absolute_pos (insert_chars tinyViewportBuffer ['\n', 'b', '\n', 'c']).1) <
            (insert_chars tinyViewportBuffer ['\n', 'b', '\n', 'c']).1.top_line
       then char_to_line (insert_chars tinyViewportBuffer ['\n', 'b', '\n', 'c']).1.buffer
            (get_caret_absolute_pos (insert_chars tinyViewportBuffer ['\n', 'b', '\n', 'c']).1)
       else (insert_chars tinyViewportBuffer ['\n', 'b', '\n', 'c']).1.top_line)) ∧
    (update_absolute_char_positions
        (update_view (insert_chars tinyViewportBuffer ['\n', 'b', '\n', 'c']).1)).top_line ≤
      char_to_line (insert_chars tinyViewportBuffer ['\n', 'b', '\n', 'c']).1.buffer
        (get_caret_absolute_pos (insert_chars tinyViewportBuffer ['\n', 'b', '\n', 'c']).1) ∧
    char_to_line (insert_chars tinyViewportBuffer ['\n', 'b', '\n', 'c']).1.buffer
        (get_caret_absolute_pos (insert_chars tinyViewportBuffer ['\n', 'b', '\n', 'c']).1) ≤
      (update_absolute_char_positions
        (update_view (insert_chars tinyViewportBuffer ['\n', 'b', '\n', 'c']).1)).bot_line :=
  c7_viewport (insert_chars tinyViewportBuffer ['\n', 'b', '\n', 'c']).1
    (by decide) (by decide)

/-! ## Claim C8: the document version counter -/

theorem insert_chars_core_lsp (tb : TextBuffer) (chars : List Char)
    (ch : List ContentChangeEvent) :
    (insert_chars_core tb chars ch).1.lsp_version = tb.lsp_version + 1 ∧
    (insert_chars_core tb chars ch).2.version = tb.lsp_version + 1 := by
  unfold insert_chars_core mk_notification
  try dsimp only
  constructor
  · simp [set_selection_lsp]
  · simp [set_selection_lsp]

theorem insert_char_core_lsp (tb : TextBuffer) (c : Nat)
    (ch : List ContentChangeEvent) :
    (insert_char_core tb c ch).1.lsp_version = tb.lsp_version + 1 ∧
    (insert_char_core tb c ch).2.version = tb.lsp_version + 1 := by
  unfold insert_char_core mk_notification
  try dsimp only
  constructor
  · simp [set_selection_lsp]
  · simp [set_selection_lsp]

/-- Every operation of `EditOp` bumps the version exactly once and stamps
the constructed notification with the bumped value. -/
theorem run_op_version (tb : TextBuffer) (op : EditOp) :
    (run_op tb op).1.lsp_version = tb.lsp_version + 1 ∧
    (run_op tb op).2.version = tb.lsp_version + 1 := by
  cases op with
  | insChar c =>
    unfold run_op insert_char
    try dsimp only
    split
    · have h := insert_char_core_lsp (delete_selection tb).1 c [(delete_selection tb).2]
      rw [delete_selection_lsp] at h
      exact h
    · exact insert_char_core_lsp tb c []
  | insChars cs =>
    unfold run_op insert_chars
    try dsimp only
    split
    · have h := insert_chars_core_lsp (delete_selection tb).1 cs [(delete_selection tb).2]
      rw [delete_selection_lsp] at h
      exact h
    · exact insert_chars_core_lsp tb cs []
  | delLeft =>
    unfold run_op delete_left
    try dsimp only
    split
    · constructor <;> simp [mk_notification, delete_selection_lsp]
    · constructor <;> simp [mk_notification, set_selection_lsp]
  | delRight =>
    unfold run_op delete_right
    try dsimp only
    split
    · constructor <;> simp [mk_notification, delete_selection_lsp]
    · constructor <;>
        (simp only [mk_notification]
         try dsimp only
         repeat' split
         all_goals rfl)

theorem run_ops_version : ∀ (ops : List EditOp) (tb : TextBuffer),
    (run_ops tb ops).1.lsp_version = tb.lsp_version + ops.length ∧
    (run_ops tb ops).2.map DidChangeNotification.version =
      List.range' (tb.lsp_version + 1) ops.length := by
  intro ops
  induction ops with
  | nil => intro tb; simp [run_ops]
  | cons op rest ih =>
    intro tb
    obtain ⟨h1, h2⟩ := run_op_version tb op
    obtain ⟨ih1, ih2⟩ := ih (run_op tb op).1
    unfold run_ops
    try dsimp only
    constructor
    · show (run_ops (run_op tb op).1 rest).1.lsp_version = tb.lsp_version + (rest.length + 1)
      rw [ih1, h1]
      omega
    · show ((run_op tb op).2 :: (run_ops (run_op tb op).1 rest).2).map
          DidChangeNotification.version =
        List.range' (tb.lsp_version + 1) (rest.length + 1)
      rw [List.map_cons, h2, ih2, h1, List.range'_succ]

/-- C8 (counterexample): one Rust-path edit produces one emitted
notification but two version bumps: `insert_char` constructs a (discarded)
incremental notification with version 2, and `process_document_change`'s
Rust arm then constructs and emits a full notification with version 3 — so
the counter is not "incremented exactly once per successfully emitted
change notification" (it would read 2, not 3, after one emission). -/
theorem c8_counterexample :
    (TextBuffer.new ['a', 'b']).lsp_version = 1 ∧
    (insert_char (TextBuffer.new ['a', 'b']) 120).1.lsp_version = 2 ∧
    (process_document_change_rust (insert_char (TextBuffer.new ['a', 'b']) 120).1).2.version
      = 3 ∧
    (process_document_change_rust (insert_char (TextBuffer.new ['a', 'b']) 120).1).1.lsp_version
      = 3 ∧
    (3 : Nat) ≠ 2 := by
  decide

/-- C8 (amended): the version counter starts at 1 and is incremented exactly
once per *constructed* change notification: over any sequence of
notification-producing buffer operations on a fresh buffer the constructed
notifications carry versions `2, 3, …` in order — strictly increasing, hence
never decreasing and pairwise distinct — and the counter ends at
`1 + (number of notifications)`.  Emission is not one-to-one with bumps:
the Rust sync path constructs a second, full notification per edit and
discards the first, and documents without LSP support never emit the
constructed notifications. -/
theorem c8_document_version (s : List Char) (ops : List EditOp) :
    (TextBuffer.new s).lsp_version = 1 ∧
    (run_ops (TextBuffer.new s) ops).1.lsp_version = 1 + ops.length ∧
    (run_ops (TextBuffer.new s) ops).2.map DidChangeNotification.version =
      List.range' 2 ops.length ∧
    List.Pairwise (fun a b => a < b)
      ((run_ops (TextBuffer.new s) ops).2.map DidChangeNotification.version) := by
  obtain ⟨h1, h2⟩ := run_ops_version ops (TextBuffer.new s)
  refine ⟨rfl, h1, h2, ?_⟩
  rw [h2]
  exact List.pairwise_lt_range' 2 ops.length

/-! ## Claim C9: the line-shift highlight correction -/

/-- Spec-side mirror of the corrector's search: the flat index (a multiple
of five) of the first token whose accumulated line exceeds
`line_before_edit`, scanning with the same stride as the source loop. -/
def firstExceedOff (line_before_edit : Nat) : Nat → List Nat → Option Nat
  | _, [] => none
  | acc_line, delta_line :: rest =>
      if line_before_edit < acc_line + delta_line then some 0
      else
        match rest with
        | _ :: _ :: _ :: _ :: rest' =>
            (firstExceedOff line_before_edit (acc_line + delta_line) rest').map (· + 5)
        | _ => none

theorem preserveLineAux_eq_set (delta : Int) (lb : Nat) :
    ∀ (n : Nat) (l : List Nat), l.length ≤ n → ∀ (acc : Nat),
      preserveLineAux delta lb acc l =
        (match firstExceedOff lb acc l with
         | none => l
         | some i => l.set i (adjust_delta_line delta (l.getD i 0))) := by
  intro n
  induction n with
  | zero =>
    intro l hl acc
    have hnil : l = [] := List.length_eq_zero.mp (Nat.le_zero.mp hl)
    subst hnil
    rfl
  | succ n ih =>
    intro l hl acc
    rcases l with _ | ⟨d, rest⟩
    · rfl
    · by_cases hlt : lb < acc + d
      · rw [preserveLineAux.eq_def, firstExceedOff.eq_def]
        simp [hlt]
      · rcases rest with _ | ⟨r1, rest⟩
        · rw [preserveLineAux.eq_def, firstExceedOff.eq_def]
          simp [hlt]
        · rcases rest with _ | ⟨r2, rest⟩
          · rw [preserveLineAux.eq_def, firstExceedOff.eq_def]
            simp [hlt]
          · rcases rest with _ | ⟨r3, rest⟩
            · rw [preserveLineAux.eq_def, firstExceedOff.eq_def]
              simp [hlt]
            · rcases rest with _ | ⟨r4, rest'⟩
              · rw [preserveLineAux.eq_def, firstExceedOff.eq_def]
                simp [hlt]
              · have hlen : rest'.length ≤ n := by
                  simp only [List.length_cons] at hl
                  omega
                have hrec := ih rest' hlen (acc + d)
                rw [preserveLineAux.eq_def, firstExceedOff.eq_def]
                simp only [if_neg hlt]
                try dsimp only
                rw [hrec]
                cases hfe : firstExceedOff lb (acc + d) rest' with
                | none => simp
                | some j =>
                  simp only [Option.map_some']
                  simp [List.set_cons_succ, List.getD_cons_succ,
                    show ∀ m : Nat, m + 5 = (((((m + 1) + 1) + 1) + 1) + 1) from by omega]

/-- C9 (counterexample): with tokens `[5,0,1,0,0, 1,0,1,0,0]` (accumulated
lines 5 and 6), `line_before_edit = 5` and `line_after_edit = 2`
(Δ = −3), the source *saturating*-subtracts: the second token's
`delta_line` becomes `1 - 3 = 0` in `Nat`, which is not the integer
subtraction `1 - 3 = -2` the claim's "subtracts the absolute delta"
describes (no `u32` value satisfies it). -/
theorem c9_counterexample :
    preserve_semantic_line_highlights [5, 0, 1, 0, 0, 1, 0, 1, 0, 0] 5 2 =
      [5, 0, 1, 0, 0, 0, 0, 1, 0, 0] ∧
    ((0 : Int) ≠ (1 : Int) - 3) := by
  decide

/-- C9 (amended): when an edit changes the caret's line by a nonzero delta,
`preserve_semantic_line_highlights` patches the `delta_line` field of
exactly the first token whose accumulated line exceeds `line_before_edit` —
adding `|Δ|` for a downward move and subtracting `|Δ|` *saturating at zero*
for an upward move — and leaves every other element of the stream unchanged
(when no token's line exceeds `line_before_edit`, or the delta is zero, the
stream is returned untouched). -/
theorem c9_shift_lines :
    (∀ (tokens : List Nat) (line_before_edit line_after_edit : Nat),
      preserve_semantic_line_highlights tokens line_before_edit line_after_edit =
        if (line_after_edit : Int) - (line_before_edit : Int) = 0 then tokens
        else
          match firstExceedOff line_before_edit 0 tokens with
          | none => tokens
          | some i =>
              tokens.set i
                (adjust_delta_line ((line_after_edit : Int) - (line_before_edit : Int))
                  (tokens.getD i 0))) ∧
    (∀ (tokens : List Nat) (line_before_edit line_after_edit i j : Nat),
      firstExceedOff line_before_edit 0 tokens = some i → j ≠ i →
      (preserve_semantic_line_highlights tokens line_before_edit line_after_edit)[j]? =
        tokens[j]?) := by
  have hmain : ∀ (tokens : List Nat) (lb la : Nat),
      preserve_semantic_line_highlights tokens lb la =
        if (la : Int) - (lb : Int) = 0 then tokens
        else
          match firstExceedOff lb 0 tokens with
          | none => tokens
          | some i =>
              tokens.set i (adjust_delta_line ((la : Int) - (lb : Int)) (tokens.getD i 0)) := by
    intro tokens lb la
    unfold preserve_semantic_line_highlights
    try dsimp only
    split
    · rfl
    · exact preserveLineAux_eq_set _ _ tokens.length tokens le_rfl 0
  refine ⟨hmain, ?_⟩
  intro tokens lb la i j hfe hne
  rw [hmain]
  split
  · rfl
  · rw [hfe]
    try dsimp only
    exact List.getElem?_set_ne (Ne.symm hne)

/-- C9 (witness): the amended characterization and the frame condition at
the concrete stream `[5,0,1,0,0, 1,0,1,0,0]` with Δ = +2: the second
token's `delta_line` (flat index 5) is patched and index 0 is untouched. -/
theorem c9_witness :
    (preserve_semantic_line_highlights [5, 0, 1, 0, 0, 1, 0, 1, 0, 0] 5 7 =
      if (7 : Int) - (5 : Int) = 0 then [5, 0, 1, 0, 0, 1, 0, 1, 0, 0]
      else
        match firstExceedOff 5 0 [5, 0, 1, 0, 0, 1, 0, 1, 0, 0] with
        | none => [5, 0, 1, 0, 0, 1, 0, 1, 0, 0]
        | some i =>
            List.set [5, 0, 1, 0, 0, 1, 0, 1, 0, 0] i
              (adjust_delta_line ((7 : Int) - (5 : Int))
                (List.getD [5, 0, 1, 0, 0, 1, 0, 1, 0, 0] i 0))) ∧
    (preserve_semantic_line_highlights [5, 0, 1, 0, 0, 1, 0, 1, 0, 0] 5 7)[0]? =
      [5, 0, 1, 0, 0, 1, 0, 1, 0, 0][0]? :=
  ⟨c9_shift_lines.1 [5, 0, 1, 0, 0, 1, 0, 1, 0, 0] 5 7,
   c9_shift_lines.2 [5, 0, 1, 0, 0, 1, 0, 1, 0, 0] 5 7 5 0 (by decide) (by decide)⟩

end Nimble
